import Mathlib

/-!
Shallow embedding of the e-mips MIPS I interpreter core.

The embedding follows the final design iteration of the source:
`src/cpu/mips1/mod.rs` (register file, branch/jump/exception plumbing) and
`src/cpu/mips1/instructions.rs` (per-instruction semantics, decoder and the
step loop).  Machine words are `Nat` values below `2 ^ 32`; every operation
that wraps in Rust (`wrapping_add`, `as u32` casts, shifts on `u32`) is made
explicit with `% 2 ^ 32`.

The external collaborators (memory bus, coprocessor 0, coprocessors 1-3) are
Rust traits whose methods take `&mut self`.  They are modelled as explicit
state: the bus carries its byte contents plus a log of the bus transactions
the core issued (each `read_*`/`write_*` trait call appends an event), and
coprocessor 0 carries a log of the exception reports the core passed to
`trigger_exception` together with a function giving the vector each report
returns.  These logs record exactly the calls the core makes, which is the
observable interface of the Rust traits.
-/

/-- Two's-complement reading of a 32-bit word stored as a `Nat`. -/
def toI32 (v : Nat) : Int :=
  if v < 2 ^ 31 then (v : Int) else (v : Int) - 2 ^ 32

/-- Truncate an integer to its low 32 bits (the `as u32` cast). -/
def toU32 (i : Int) : Nat :=
  (i % 2 ^ 32).toNat

/-- Truncate an integer to its low 64 bits (the `as u64` cast). -/
def toU64 (i : Int) : Nat :=
  (i % 2 ^ 64).toNat

/-- Source `common.rs` `sign_extend_8`: sign-extend an 8-bit value to 32 bits. -/
def signExtend8 (v : Nat) : Nat :=
  if v % 2 ^ 8 < 2 ^ 7 then v % 2 ^ 8 else 0xFFFFFF00 + v % 2 ^ 8

/-- Source `common.rs` `sign_extend_16`: sign-extend a 16-bit value to 32 bits. -/
def signExtend16 (v : Nat) : Nat :=
  if v % 2 ^ 16 < 2 ^ 15 then v % 2 ^ 16 else 0xFFFF0000 + v % 2 ^ 16

/-- Source `common.rs` `sign_extend_32`: a 32-bit word as a signed 64-bit value. -/
def signExtend32 (v : Nat) : Int :=
  toI32 v

/-- Source `common.rs` `hi64`: high word of a 64-bit value. -/
def hi64 (v : Nat) : Nat :=
  v / 2 ^ 32 % 2 ^ 32

/-- Source `common.rs` `lo64`: low word of a 64-bit value. -/
def lo64 (v : Nat) : Nat :=
  v % 2 ^ 32

/-- `u32::checked_add`: the sum if it fits in 32 bits, else `none`.
This is the check the source's `add`/`addi` perform (an unsigned carry
check, not a signed-overflow check). -/
def checkedAdd32 (a b : Nat) : Option Nat :=
  if a + b < 2 ^ 32 then some (a + b) else none

/-- `u32::checked_sub`: the difference unless it borrows, else `none`.
This is the check the source's `sub` performs. -/
def checkedSub32 (a b : Nat) : Option Nat :=
  if b ≤ a then some (a - b) else none

/-- Exception codes from `src/cpu/mod.rs`. -/
inductive ExceptionCode where
  | interrupt
  | tlbMod
  | tlbLoad
  | tlbStore
  | addrErrorLoad
  | addrErrorStore
  | instructionBusError
  | dataBusError
  | syscallEx
  | breakpoint
  | reservedInstr
  | coProcUnusable
  | arithmeticOverflow
deriving DecidableEq, Repr

/-- Coprocessor selector from `src/cpu/mod.rs` (`Coproc::_0` .. `Coproc::_3`). -/
inductive Coproc where
  | c0
  | c1
  | c2
  | c3
deriving DecidableEq, Repr

/-- Exception report passed to coprocessor 0 (`src/coproc.rs` `Exception`). -/
structure ExceptionReport where
  code : ExceptionCode
  retAddr : Nat
  badVirtualAddr : Nat
  branchDelay : Bool
deriving DecidableEq, Repr

/-- A transaction the core issues on the `Mem32` bus trait. -/
inductive BusEvent where
  | readByte (addr : Nat)
  | writeByte (addr val : Nat)
  | readHalf (addr : Nat)
  | writeHalf (addr val : Nat)
  | readWord (addr : Nat)
  | writeWord (addr val : Nat)
deriving DecidableEq, Repr

/-- The memory bus.  `bytes` is the byte content backing the default
`Mem32` halfword/word composition; `events` logs (most recent first) every
read/write call the core makes through the trait; `intMask` is the
interrupt mask `clock` returns. -/
structure Bus where
  littleEndian : Bool
  bytes : Nat → Nat
  events : List BusEvent
  intMask : Nat

/-- Pure byte lookup (a byte is always below 256). -/
def Bus.byteAt (b : Bus) (addr : Nat) : Nat :=
  b.bytes addr % 2 ^ 8

/-- Value a `read_halfword` returns: the `Mem32` default composes two bytes
in endian order. -/
def Bus.halfAt (b : Bus) (addr : Nat) : Nat :=
  if b.littleEndian then
    b.byteAt addr + b.byteAt (addr + 1) * 2 ^ 8
  else
    b.byteAt (addr + 1) + b.byteAt addr * 2 ^ 8

/-- Value a `read_word` returns: the `Mem32` default composes four bytes in
endian order. -/
def Bus.wordAt (b : Bus) (addr : Nat) : Nat :=
  if b.littleEndian then
    b.byteAt addr + b.byteAt (addr + 1) * 2 ^ 8 +
      b.byteAt (addr + 2) * 2 ^ 16 + b.byteAt (addr + 3) * 2 ^ 24
  else
    b.byteAt (addr + 3) + b.byteAt (addr + 2) * 2 ^ 8 +
      b.byteAt (addr + 1) * 2 ^ 16 + b.byteAt addr * 2 ^ 24

/-- `read_byte` trait call: returns the byte and logs the transaction. -/
def Bus.readByte (b : Bus) (addr : Nat) : Nat × Bus :=
  (b.byteAt addr, { b with events := BusEvent.readByte addr :: b.events })

/-- `write_byte` trait call. -/
def Bus.writeByte (b : Bus) (addr val : Nat) : Bus :=
  { b with
      bytes := fun a => if a = addr then val % 2 ^ 8 else b.bytes a
      events := BusEvent.writeByte addr (val % 2 ^ 8) :: b.events }

/-- `read_halfword` trait call. -/
def Bus.readHalf (b : Bus) (addr : Nat) : Nat × Bus :=
  (b.halfAt addr, { b with events := BusEvent.readHalf addr :: b.events })

/-- `write_halfword` trait call: stores the two bytes in endian order. -/
def Bus.writeHalf (b : Bus) (addr val : Nat) : Bus :=
  let v := val % 2 ^ 16
  let lo := v % 2 ^ 8
  let hi := v / 2 ^ 8
  let b0 := if b.littleEndian then lo else hi
  let b1 := if b.littleEndian then hi else lo
  { b with
      bytes := fun a =>
        if a = addr then b0 else if a = addr + 1 then b1 else b.bytes a
      events := BusEvent.writeHalf addr v :: b.events }

/-- `read_word` trait call. -/
def Bus.readWord (b : Bus) (addr : Nat) : Nat × Bus :=
  (b.wordAt addr, { b with events := BusEvent.readWord addr :: b.events })

/-- `write_word` trait call: stores the four bytes in endian order. -/
def Bus.writeWord (b : Bus) (addr val : Nat) : Bus :=
  let v := val % 2 ^ 32
  let x0 := v % 2 ^ 8
  let x1 := v / 2 ^ 8 % 2 ^ 8
  let x2 := v / 2 ^ 16 % 2 ^ 8
  let x3 := v / 2 ^ 24 % 2 ^ 8
  let b0 := if b.littleEndian then x0 else x3
  let b1 := if b.littleEndian then x1 else x2
  let b2 := if b.littleEndian then x2 else x1
  let b3 := if b.littleEndian then x3 else x0
  { b with
      bytes := fun a =>
        if a = addr then b0
        else if a = addr + 1 then b1
        else if a = addr + 2 then b2
        else if a = addr + 3 then b3
        else b.bytes a
      events := BusEvent.writeWord addr v :: b.events }

/-- `clock` trait call: the model returns the bus's interrupt mask and
leaves the bus state unchanged. -/
def Bus.clock (b : Bus) (_cycles : Nat) : Nat × Bus :=
  (b.intMask, b)

/-- Coprocessor 0 (`src/coproc.rs` trait `Coprocessor0`).  `exLog` records
(most recent first) the reports the core passes to `trigger_exception`;
`vectorFn` gives the vector each report returns; `extInt` is the result of
`external_interrupt` for a given mask. -/
structure Cop0State where
  dataReg : Nat → Nat
  exLog : List ExceptionReport
  vectorFn : ExceptionReport → Nat
  resetVector : Nat
  extInt : Nat → Bool
  opLog : List Nat

/-- Coprocessor 0 `move_from_reg`. -/
def Cop0State.moveFromReg (c : Cop0State) (reg : Nat) : Nat :=
  c.dataReg reg

/-- Coprocessor 0 `move_to_reg`. -/
def Cop0State.moveToReg (c : Cop0State) (reg val : Nat) : Cop0State :=
  { c with dataReg := fun r => if r = reg then val else c.dataReg r }

/-- Coprocessor 0 `operation`: the raw call is logged. -/
def Cop0State.operation (c : Cop0State) (op : Nat) : Cop0State :=
  { c with opLog := op :: c.opLog }

/-- Coprocessor 0 `trigger_exception`: records the report and returns the
vector to jump to. -/
def Cop0State.trigger (c : Cop0State) (report : ExceptionReport) :
    Nat × Cop0State :=
  (c.vectorFn report, { c with exLog := report :: c.exLog })

/-- A slot-1/2/3 coprocessor (`src/coproc.rs` trait `Coprocessor`); `opLog`
records the raw `operation` calls. -/
structure CoprocState where
  dataReg : Nat → Nat
  ctrlReg : Nat → Nat
  opLog : List Nat

/-- `move_from_reg` for coprocessors 1-3. -/
def CoprocState.moveFromReg (c : CoprocState) (reg : Nat) : Nat :=
  c.dataReg reg

/-- `move_to_reg` for coprocessors 1-3. -/
def CoprocState.moveToReg (c : CoprocState) (reg val : Nat) : CoprocState :=
  { c with dataReg := fun r => if r = reg then val else c.dataReg r }

/-- `move_from_control` for coprocessors 1-3. -/
def CoprocState.moveFromControl (c : CoprocState) (reg : Nat) : Nat :=
  c.ctrlReg reg

/-- `move_to_control` for coprocessors 1-3. -/
def CoprocState.moveToControl (c : CoprocState) (reg val : Nat) : CoprocState :=
  { c with ctrlReg := fun r => if r = reg then val else c.ctrlReg r }

/-- `operation` for coprocessors 1-3: the raw call is logged. -/
def CoprocState.operation (c : CoprocState) (op : Nat) : CoprocState :=
  { c with opLog := op :: c.opLog }

/-- The CPU-owned registers of `MIPSI` (`src/cpu/mips1/mod.rs`). -/
structure CPUState where
  gp : Nat → Nat
  hi : Nat
  lo : Nat
  pc : Nat
  pcNext : Nat
  currentInstrAddr : Nat
  branchDelay : Bool
  branchInterrupt : Bool

/-- The whole machine: CPU state plus the collaborators the core owns. -/
structure Machine where
  cpu : CPUState
  bus : Bus
  cop0 : Cop0State
  cop1 : Option CoprocState
  cop2 : Option CoprocState
  cop3 : Option CoprocState

/-- `read_gp` from `mod.rs`: a plain array read (index 0 is not
special-cased on read; it stays 0 because writes to it are discarded). -/
def readGp (m : Machine) (reg : Nat) : Nat :=
  m.cpu.gp reg

/-- `write_gp` from `mod.rs`: writes are discarded for register 0. -/
def writeGp (m : Machine) (reg val : Nat) : Machine :=
  if reg ≠ 0 then
    { m with cpu :=
        { m.cpu with gp := fun r => if r = reg then val else m.cpu.gp r } }
  else m

/-- `read_hi` from `mod.rs`. -/
def readHi (m : Machine) : Nat := m.cpu.hi

/-- `write_hi` from `mod.rs`. -/
def writeHi (m : Machine) (val : Nat) : Machine :=
  { m with cpu := { m.cpu with hi := val } }

/-- `read_lo` from `mod.rs`. -/
def readLo (m : Machine) : Nat := m.cpu.lo

/-- `write_lo` from `mod.rs`. -/
def writeLo (m : Machine) (val : Nat) : Machine :=
  { m with cpu := { m.cpu with lo := val } }

/-- `link_register` from `mod.rs`: writes the current `pc_next` into the
given register. -/
def linkRegister (m : Machine) (reg : Nat) : Machine :=
  writeGp m reg m.cpu.pcNext

/-- `branch` from `mod.rs`: sets the delay flag and rewrites `pc_next` to
`pc.wrapping_add(offset)` (at execution time `pc` has already advanced to
the delay-slot address). -/
def branch (m : Machine) (offset : Nat) : Machine :=
  { m with cpu :=
      { m.cpu with
          branchDelay := true
          pcNext := (m.cpu.pc + offset) % 2 ^ 32 } }

/-- `jump_global` from `mod.rs`: sets the delay flag and replaces all 32
bits of `pc_next`. -/
def jumpGlobal (m : Machine) (addr : Nat) : Machine :=
  { m with cpu :=
      { m.cpu with
          branchDelay := true
          pcNext := addr } }

/-- `jump_segment` from `mod.rs`: sets the delay flag and keeps the top
nibble of `pc_next`. -/
def jumpSegment (m : Machine) (segmentAddr : Nat) : Machine :=
  { m with cpu :=
      { m.cpu with
          branchDelay := true
          pcNext := (m.cpu.pcNext &&& 0xF0000000) ||| segmentAddr } }

/-- `trigger_exception` from `mod.rs`: builds the report from the current
`branch_delay` flag (`ret_addr` is `current_instr_addr.wrapping_sub(4)`
when the flag is set), passes it to coprocessor 0 and vectors `pc`. -/
def triggerException (m : Machine) (code : ExceptionCode) : Machine :=
  let report : ExceptionReport :=
    { code := code
      retAddr :=
        if m.cpu.branchDelay then
          (m.cpu.currentInstrAddr + 2 ^ 32 - 4) % 2 ^ 32
        else m.cpu.currentInstrAddr
      badVirtualAddr := 0
      branchDelay := m.cpu.branchDelay }
  let vc := m.cop0.trigger report
  { m with
      cpu := { m.cpu with pc := vc.1, pcNext := (vc.1 + 4) % 2 ^ 32 }
      cop0 := vc.2 }

namespace MIPSI

/-- `add` (ADD): the source checks `u32::checked_add` (an unsigned carry
check) and raises `ArithmeticOverflow` without writing the destination when
the check fails. -/
def add (m : Machine) (srcReg tgtReg dstReg : Nat) : Machine :=
  let source := readGp m srcReg
  let target := readGp m tgtReg
  match checkedAdd32 source target with
  | some result => writeGp m dstReg result
  | none => triggerException m .arithmeticOverflow

/-- `addi` (ADDI): `u32::checked_add` of the source register and the
sign-extended immediate. -/
def addi (m : Machine) (srcReg tgtReg imm : Nat) : Machine :=
  let source := readGp m srcReg
  let imm32 := signExtend16 imm
  match checkedAdd32 source imm32 with
  | some result => writeGp m tgtReg result
  | none => triggerException m .arithmeticOverflow

/-- `addu` (ADDU): wrapping 32-bit add. -/
def addu (m : Machine) (srcReg tgtReg dstReg : Nat) : Machine :=
  writeGp m dstReg ((readGp m srcReg + readGp m tgtReg) % 2 ^ 32)

/-- `addiu` (ADDIU): wrapping add of the sign-extended immediate. -/
def addiu (m : Machine) (srcReg tgtReg imm : Nat) : Machine :=
  writeGp m tgtReg ((readGp m srcReg + signExtend16 imm) % 2 ^ 32)

/-- `sub` (SUB): the source checks `u32::checked_sub` (an unsigned borrow
check) and raises `ArithmeticOverflow` when it borrows. -/
def sub (m : Machine) (srcReg tgtReg dstReg : Nat) : Machine :=
  let source := readGp m srcReg
  let target := readGp m tgtReg
  match checkedSub32 source target with
  | some result => writeGp m dstReg result
  | none => triggerException m .arithmeticOverflow

/-- `subu` (SUBU): wrapping 32-bit subtract. -/
def subu (m : Machine) (srcReg tgtReg dstReg : Nat) : Machine :=
  writeGp m dstReg ((readGp m srcReg + 2 ^ 32 - readGp m tgtReg % 2 ^ 32) % 2 ^ 32)

/-- `mult` (MULT): signed 32x32 to 64; HI and LO take the halves. -/
def mult (m : Machine) (srcReg tgtReg : Nat) : Machine :=
  let result := toU64 (signExtend32 (readGp m srcReg) * signExtend32 (readGp m tgtReg))
  writeLo (writeHi m (hi64 result)) (lo64 result)

/-- `multu` (MULTU): unsigned 32x32 to 64. -/
def multu (m : Machine) (srcReg tgtReg : Nat) : Machine :=
  let result := readGp m srcReg * readGp m tgtReg
  writeLo (writeHi m (hi64 result)) (lo64 result)

/-- `div` (DIV): signed division, LO quotient and HI remainder.  The model
follows host semantics (truncated division); the source panics on a zero
divisor and on `i32::MIN / -1` (behaviour the spec leaves undefined). -/
def div (m : Machine) (srcReg tgtReg : Nat) : Machine :=
  let source := toI32 (readGp m srcReg)
  let target := toI32 (readGp m tgtReg)
  writeLo (writeHi m (toU32 (Int.tmod source target))) (toU32 (Int.tdiv source target))

/-- `divu` (DIVU): unsigned division; the source panics on a zero divisor
(the model yields the Lean conventions 0 and the dividend). -/
def divu (m : Machine) (srcReg tgtReg : Nat) : Machine :=
  writeLo (writeHi m (readGp m srcReg % readGp m tgtReg)) (readGp m srcReg / readGp m tgtReg)

/-- `mfhi` (MFHI). -/
def mfhi (m : Machine) (dstReg : Nat) : Machine :=
  writeGp m dstReg (readHi m)

/-- `mthi` (MTHI). -/
def mthi (m : Machine) (srcReg : Nat) : Machine :=
  writeHi m (readGp m srcReg)

/-- `mflo` (MFLO). -/
def mflo (m : Machine) (dstReg : Nat) : Machine :=
  writeGp m dstReg (readLo m)

/-- `mtlo` (MTLO). -/
def mtlo (m : Machine) (srcReg : Nat) : Machine :=
  writeLo m (readGp m srcReg)

/-- `and` (AND). -/
def andOp (m : Machine) (srcReg tgtReg dstReg : Nat) : Machine :=
  writeGp m dstReg (readGp m srcReg &&& readGp m tgtReg)

/-- `andi` (ANDI): the immediate is zero-extended. -/
def andi (m : Machine) (srcReg tgtReg imm : Nat) : Machine :=
  writeGp m tgtReg (readGp m srcReg &&& imm % 2 ^ 16)

/-- `or` (OR). -/
def orOp (m : Machine) (srcReg tgtReg dstReg : Nat) : Machine :=
  writeGp m dstReg (readGp m srcReg ||| readGp m tgtReg)

/-- `ori` (ORI). -/
def ori (m : Machine) (srcReg tgtReg imm : Nat) : Machine :=
  writeGp m tgtReg (readGp m srcReg ||| imm % 2 ^ 16)

/-- `xor` (XOR). -/
def xorOp (m : Machine) (srcReg tgtReg dstReg : Nat) : Machine :=
  writeGp m dstReg (readGp m srcReg ^^^ readGp m tgtReg)

/-- `xori` (XORI). -/
def xori (m : Machine) (srcReg tgtReg imm : Nat) : Machine :=
  writeGp m tgtReg (readGp m srcReg ^^^ imm % 2 ^ 16)

/-- `nor` (NOR): 32-bit complement of the or. -/
def nor (m : Machine) (srcReg tgtReg dstReg : Nat) : Machine :=
  writeGp m dstReg (0xFFFFFFFF - (readGp m srcReg ||| readGp m tgtReg) % 2 ^ 32)

/-- `sll` (SLL): logical left shift by the 5-bit constant, truncated to 32
bits. -/
def sll (m : Machine) (tgtReg shAmt dstReg : Nat) : Machine :=
  writeGp m dstReg ((readGp m tgtReg <<< shAmt) % 2 ^ 32)

/-- `srl` (SRL). -/
def srl (m : Machine) (tgtReg shAmt dstReg : Nat) : Machine :=
  writeGp m dstReg (readGp m tgtReg >>> shAmt)

/-- `sra` (SRA): arithmetic right shift of the two's-complement value
(`i32 >>` rounds toward negative infinity, i.e. floor division). -/
def sra (m : Machine) (tgtReg shAmt dstReg : Nat) : Machine :=
  writeGp m dstReg (toU32 (Int.fdiv (toI32 (readGp m tgtReg)) (2 ^ shAmt)))

/-- `sllv` (SLLV): shift amount is the low five bits of the source
register. -/
def sllv (m : Machine) (srcReg tgtReg dstReg : Nat) : Machine :=
  writeGp m dstReg ((readGp m tgtReg <<< (readGp m srcReg % 2 ^ 5)) % 2 ^ 32)

/-- `srlv` (SRLV). -/
def srlv (m : Machine) (srcReg tgtReg dstReg : Nat) : Machine :=
  writeGp m dstReg (readGp m tgtReg >>> (readGp m srcReg % 2 ^ 5))

/-- `srav` (SRAV). -/
def srav (m : Machine) (srcReg tgtReg dstReg : Nat) : Machine :=
  writeGp m dstReg (toU32 (Int.fdiv (toI32 (readGp m tgtReg)) (2 ^ (readGp m srcReg % 2 ^ 5))))

/-- `slt` (SLT): signed compare. -/
def slt (m : Machine) (srcReg tgtReg dstReg : Nat) : Machine :=
  writeGp m dstReg (if toI32 (readGp m srcReg) < toI32 (readGp m tgtReg) then 1 else 0)

/-- `sltu` (SLTU): unsigned compare. -/
def sltu (m : Machine) (srcReg tgtReg dstReg : Nat) : Machine :=
  writeGp m dstReg (if readGp m srcReg < readGp m tgtReg then 1 else 0)

/-- `slti` (SLTI): signed compare against the sign-extended immediate. -/
def slti (m : Machine) (srcReg tgtReg imm : Nat) : Machine :=
  writeGp m tgtReg (if toI32 (readGp m srcReg) < toI32 (signExtend16 imm) then 1 else 0)

/-- `sltiu` (SLTIU): the immediate is sign-extended and then compared
unsigned. -/
def sltiu (m : Machine) (srcReg tgtReg imm : Nat) : Machine :=
  writeGp m tgtReg (if readGp m srcReg < signExtend16 imm then 1 else 0)

/-- Effective address: base register plus sign-extended offset, wrapping. -/
def effAddr (m : Machine) (baseReg offset : Nat) : Nat :=
  (readGp m baseReg + signExtend16 offset) % 2 ^ 32

/-- `lb` (LB): load byte, sign-extended. -/
def lb (m : Machine) (baseReg tgtReg offset : Nat) : Machine :=
  let r := m.bus.readByte (effAddr m baseReg offset)
  writeGp { m with bus := r.2 } tgtReg (signExtend8 r.1)

/-- `lbu` (LBU): load byte, zero-extended. -/
def lbu (m : Machine) (baseReg tgtReg offset : Nat) : Machine :=
  let r := m.bus.readByte (effAddr m baseReg offset)
  writeGp { m with bus := r.2 } tgtReg r.1

/-- `lh` (LH): load halfword, sign-extended. -/
def lh (m : Machine) (baseReg tgtReg offset : Nat) : Machine :=
  let r := m.bus.readHalf (effAddr m baseReg offset)
  writeGp { m with bus := r.2 } tgtReg (signExtend16 r.1)

/-- `lhu` (LHU): load halfword, zero-extended. -/
def lhu (m : Machine) (baseReg tgtReg offset : Nat) : Machine :=
  let r := m.bus.readHalf (effAddr m baseReg offset)
  writeGp { m with bus := r.2 } tgtReg r.1

/-- `lw` (LW): load word. -/
def lw (m : Machine) (baseReg tgtReg offset : Nat) : Machine :=
  let r := m.bus.readWord (effAddr m baseReg offset)
  writeGp { m with bus := r.2 } tgtReg r.1

/-- The LWL mask applied to the old register value: the source's match on
`byte_offset` (`0xFFFF_FFFF >> 24 / >> 16 / >> 8`). -/
def lwlMask (byteOffset : Nat) : Nat :=
  match byteOffset with
  | 0 => 0
  | 1 => 0xFFFFFFFF >>> 24
  | 2 => 0xFFFFFFFF >>> 16
  | _ => 0xFFFFFFFF >>> 8

/-- The LWR mask applied to the old register value: the source's match on
`byte_offset` (`0xFFFF_FFFF << 24 / << 16 / << 8`, truncated to `u32`). -/
def lwrMask (byteOffset : Nat) : Nat :=
  match byteOffset with
  | 0 => 0
  | 1 => (0xFFFFFFFF <<< 24) % 2 ^ 32
  | 2 => (0xFFFFFFFF <<< 16) % 2 ^ 32
  | _ => (0xFFFFFFFF <<< 8) % 2 ^ 32

/-- `lwl` (LWL): merge the aligned word into the high end of the register.
`byte_offset` is `3 - (addr & 3)` on a little-endian bus, `addr & 3`
otherwise. -/
def lwl (m : Machine) (baseReg tgtReg offset : Nat) : Machine :=
  let addr := effAddr m baseReg offset
  let wordAddr := addr &&& 0xFFFFFFFC
  let byteAddr := addr &&& 3
  let byteOffset := if m.bus.littleEndian then 3 - byteAddr else byteAddr
  let r := m.bus.readWord wordAddr
  let oldWord := lwlMask byteOffset &&& readGp m tgtReg
  writeGp { m with bus := r.2 } tgtReg (oldWord ||| (r.1 <<< (byteOffset * 8)) % 2 ^ 32)

/-- `lwr` (LWR): merge the aligned word into the low end of the register.
`byte_offset` is `addr & 3` on a little-endian bus, `3 - (addr & 3)`
otherwise. -/
def lwr (m : Machine) (baseReg tgtReg offset : Nat) : Machine :=
  let addr := effAddr m baseReg offset
  let wordAddr := addr &&& 0xFFFFFFFC
  let byteAddr := addr &&& 3
  let byteOffset := if m.bus.littleEndian then byteAddr else 3 - byteAddr
  let r := m.bus.readWord wordAddr
  let oldWord := lwrMask byteOffset &&& readGp m tgtReg
  writeGp { m with bus := r.2 } tgtReg (oldWord ||| r.1 >>> (byteOffset * 8))

/-- `sb` (SB): store the low byte of the register. -/
def sb (m : Machine) (baseReg tgtReg offset : Nat) : Machine :=
  { m with bus := m.bus.writeByte (effAddr m baseReg offset) (readGp m tgtReg % 2 ^ 8) }

/-- `sh` (SH): store the low halfword of the register. -/
def sh (m : Machine) (baseReg tgtReg offset : Nat) : Machine :=
  { m with bus := m.bus.writeHalf (effAddr m baseReg offset) (readGp m tgtReg % 2 ^ 16) }

/-- `sw` (SW): store the register word. -/
def sw (m : Machine) (baseReg tgtReg offset : Nat) : Machine :=
  { m with bus := m.bus.writeWord (effAddr m baseReg offset) (readGp m tgtReg) }

/-- `swl` (SWL): merge the high end of the register into the aligned word
(the memory keeps the `lwr`-shaped mask and receives `rt >> shift`). -/
def swl (m : Machine) (baseReg tgtReg offset : Nat) : Machine :=
  let addr := effAddr m baseReg offset
  let wordAddr := addr &&& 0xFFFFFFFC
  let byteAddr := addr &&& 3
  let byteOffset := if m.bus.littleEndian then 3 - byteAddr else byteAddr
  let word := readGp m tgtReg
  let r := m.bus.readWord wordAddr
  let oldWord := lwrMask byteOffset &&& r.1
  { m with bus := r.2.writeWord wordAddr (oldWord ||| word >>> (byteOffset * 8)) }

/-- `swr` (SWR): merge the low end of the register into the aligned word
(the memory keeps the `lwl`-shaped mask and receives `rt << shift`). -/
def swr (m : Machine) (baseReg tgtReg offset : Nat) : Machine :=
  let addr := effAddr m baseReg offset
  let wordAddr := addr &&& 0xFFFFFFFC
  let byteAddr := addr &&& 3
  let byteOffset := if m.bus.littleEndian then byteAddr else 3 - byteAddr
  let word := readGp m tgtReg
  let r := m.bus.readWord wordAddr
  let oldWord := lwlMask byteOffset &&& r.1
  { m with bus := r.2.writeWord wordAddr (oldWord ||| (word <<< (byteOffset * 8)) % 2 ^ 32) }

/-- `lui` (LUI): immediate shifted into the upper half. -/
def lui (m : Machine) (tgtReg imm : Nat) : Machine :=
  writeGp m tgtReg (imm % 2 ^ 16 * 2 ^ 16)

/-- `beq` (BEQ): branch on 32-bit equality by `sign_extend(imm) << 2`. -/
def beq (m : Machine) (srcReg tgtReg offset : Nat) : Machine :=
  if readGp m srcReg = readGp m tgtReg then
    branch m ((signExtend16 offset <<< 2) % 2 ^ 32)
  else m

/-- `bne` (BNE). -/
def bne (m : Machine) (srcReg tgtReg offset : Nat) : Machine :=
  if readGp m srcReg ≠ readGp m tgtReg then
    branch m ((signExtend16 offset <<< 2) % 2 ^ 32)
  else m

/-- `bgtz` (BGTZ): signed compare against zero. -/
def bgtz (m : Machine) (srcReg offset : Nat) : Machine :=
  if 0 < toI32 (readGp m srcReg) then
    branch m ((signExtend16 offset <<< 2) % 2 ^ 32)
  else m

/-- `bgez` (BGEZ). -/
def bgez (m : Machine) (srcReg offset : Nat) : Machine :=
  if 0 ≤ toI32 (readGp m srcReg) then
    branch m ((signExtend16 offset <<< 2) % 2 ^ 32)
  else m

/-- `bgezal` (BGEZAL): link register 31 unconditionally, then test the
condition (the source reads the operand after linking). -/
def bgezal (m : Machine) (srcReg offset : Nat) : Machine :=
  let m1 := linkRegister m 31
  if 0 ≤ toI32 (readGp m1 srcReg) then
    branch m1 ((signExtend16 offset <<< 2) % 2 ^ 32)
  else m1

/-- `bltz` (BLTZ). -/
def bltz (m : Machine) (srcReg offset : Nat) : Machine :=
  if toI32 (readGp m srcReg) < 0 then
    branch m ((signExtend16 offset <<< 2) % 2 ^ 32)
  else m

/-- `blez` (BLEZ). -/
def blez (m : Machine) (srcReg offset : Nat) : Machine :=
  if toI32 (readGp m srcReg) ≤ 0 then
    branch m ((signExtend16 offset <<< 2) % 2 ^ 32)
  else m

/-- `bltzal` (BLTZAL): link register 31 unconditionally, then test. -/
def bltzal (m : Machine) (srcReg offset : Nat) : Machine :=
  let m1 := linkRegister m 31
  if toI32 (readGp m1 srcReg) < 0 then
    branch m1 ((signExtend16 offset <<< 2) % 2 ^ 32)
  else m1

/-- `j` (J).  Modelled from the spec: `instructions.rs` dispatches through
the `MIPSICore` method `jump`, for which the final-iteration `mod.rs`
provides no implementation (it provides `jump_global` and `jump_segment`);
the spec states J/JAL use the jump-segment form, which also matches the
26-bit operand. -/
def j (m : Machine) (target : Nat) : Machine :=
  jumpSegment m ((target <<< 2) % 2 ^ 32)

/-- `jal` (JAL): link register 31, then jump as J. -/
def jal (m : Machine) (target : Nat) : Machine :=
  j (linkRegister m 31) target

/-- `jr` (JR).  Modelled from the spec: the `jump` dispatch is missing from
the final iteration (see `j`); the spec states JR/JALR use the jump-global
form, which replaces all 32 bits of `pc_next`. -/
def jr (m : Machine) (srcReg : Nat) : Machine :=
  jumpGlobal m (readGp m srcReg)

/-- `jalr` (JALR): link the destination register, then jump to the source
register (read after linking, as in the source). -/
def jalr (m : Machine) (srcReg dstReg : Nat) : Machine :=
  let m1 := linkRegister m dstReg
  jumpGlobal m1 (readGp m1 srcReg)

/-- `syscall` (SYSCALL). -/
def syscall (m : Machine) : Machine :=
  triggerException m .syscallEx

/-- `brk` (BREAK). -/
def brk (m : Machine) : Machine :=
  triggerException m .breakpoint

/-- `mtcz` (MTCz): move a GPR into a coprocessor data register; an empty
slot (1-3 only) raises `CoProcUnusable`. -/
def mtcz (m : Machine) (cp : Coproc) (tgtReg copReg : Nat) : Machine :=
  let val := readGp m tgtReg
  match cp with
  | .c0 => { m with cop0 := m.cop0.moveToReg copReg val }
  | .c1 =>
    match m.cop1 with
    | some cop => { m with cop1 := some (cop.moveToReg copReg val) }
    | none => triggerException m .coProcUnusable
  | .c2 =>
    match m.cop2 with
    | some cop => { m with cop2 := some (cop.moveToReg copReg val) }
    | none => triggerException m .coProcUnusable
  | .c3 =>
    match m.cop3 with
    | some cop => { m with cop3 := some (cop.moveToReg copReg val) }
    | none => triggerException m .coProcUnusable

/-- `mfcz` (MFCz): move a coprocessor data register into a GPR; an empty
slot raises `CoProcUnusable` and the GPR is not written. -/
def mfcz (m : Machine) (cp : Coproc) (tgtReg copReg : Nat) : Machine :=
  match
    (match cp with
     | .c0 => some (m.cop0.moveFromReg copReg)
     | .c1 => m.cop1.map (fun cop => cop.moveFromReg copReg)
     | .c2 => m.cop2.map (fun cop => cop.moveFromReg copReg)
     | .c3 => m.cop3.map (fun cop => cop.moveFromReg copReg)) with
  | some val => writeGp m tgtReg val
  | none => triggerException m .coProcUnusable

/-- `ctcz` (CTCz): move a GPR into a coprocessor control register (never
decoded for coprocessor 0). -/
def ctcz (m : Machine) (cp : Coproc) (tgtReg ctrlReg : Nat) : Machine :=
  let val := readGp m tgtReg
  match cp with
  | .c0 => m
  | .c1 =>
    match m.cop1 with
    | some cop => { m with cop1 := some (cop.moveToControl ctrlReg val) }
    | none => triggerException m .coProcUnusable
  | .c2 =>
    match m.cop2 with
    | some cop => { m with cop2 := some (cop.moveToControl ctrlReg val) }
    | none => triggerException m .coProcUnusable
  | .c3 =>
    match m.cop3 with
    | some cop => { m with cop3 := some (cop.moveToControl ctrlReg val) }
    | none => triggerException m .coProcUnusable

/-- `cfcz` (CFCz): move a coprocessor control register into a GPR. -/
def cfcz (m : Machine) (cp : Coproc) (tgtReg ctrlReg : Nat) : Machine :=
  match
    (match cp with
     | .c0 => none
     | .c1 => m.cop1.map (fun cop => cop.moveFromControl ctrlReg)
     | .c2 => m.cop2.map (fun cop => cop.moveFromControl ctrlReg)
     | .c3 => m.cop3.map (fun cop => cop.moveFromControl ctrlReg)) with
  | some val => writeGp m tgtReg val
  | none => triggerException m .coProcUnusable

/-- `lwcz` (LWCz): the source reads the memory word *before* checking
whether the slot is populated; an empty slot then raises
`CoProcUnusable`. -/
def lwcz (m : Machine) (cp : Coproc) (baseReg copReg offset : Nat) : Machine :=
  let addr := effAddr m baseReg offset
  let r := m.bus.readWord addr
  let m1 := { m with bus := r.2 }
  match cp with
  | .c0 => m1
  | .c1 =>
    match m1.cop1 with
    | some cop => { m1 with cop1 := some (cop.moveToReg copReg r.1) }
    | none => triggerException m1 .coProcUnusable
  | .c2 =>
    match m1.cop2 with
    | some cop => { m1 with cop2 := some (cop.moveToReg copReg r.1) }
    | none => triggerException m1 .coProcUnusable
  | .c3 =>
    match m1.cop3 with
    | some cop => { m1 with cop3 := some (cop.moveToReg copReg r.1) }
    | none => triggerException m1 .coProcUnusable

/-- `swcz` (SWCz): the coprocessor register is fetched first; an empty slot
raises `CoProcUnusable` before any memory access. -/
def swcz (m : Machine) (cp : Coproc) (baseReg copReg offset : Nat) : Machine :=
  match
    (match cp with
     | .c0 => none
     | .c1 => m.cop1.map (fun cop => cop.moveFromReg copReg)
     | .c2 => m.cop2.map (fun cop => cop.moveFromReg copReg)
     | .c3 => m.cop3.map (fun cop => cop.moveFromReg copReg)) with
  | some data => { m with bus := m.bus.writeWord (effAddr m baseReg offset) data }
  | none => triggerException m .coProcUnusable

/-- `copz` (COPz): raw coprocessor operation; an empty slot raises
`CoProcUnusable`. -/
def copz (m : Machine) (cp : Coproc) (cofun : Nat) : Machine :=
  match cp with
  | .c0 => { m with cop0 := m.cop0.operation cofun }
  | .c1 =>
    match m.cop1 with
    | some cop => { m with cop1 := some (cop.operation cofun) }
    | none => triggerException m .coProcUnusable
  | .c2 =>
    match m.cop2 with
    | some cop => { m with cop2 := some (cop.operation cofun) }
    | none => triggerException m .coProcUnusable
  | .c3 =>
    match m.cop3 with
    | some cop => { m with cop3 := some (cop.operation cofun) }
    | none => triggerException m .coProcUnusable

end MIPSI

/-- Decoded instruction records (`MIPSIInstruction` in
`instructions.rs`). -/
inductive MIPSIInstruction where
  | ADD (source target dest : Nat)
  | ADDU (source target dest : Nat)
  | SUB (source target dest : Nat)
  | SUBU (source target dest : Nat)
  | MULT (source target : Nat)
  | MULTU (source target : Nat)
  | DIV (source target : Nat)
  | DIVU (source target : Nat)
  | MFHI (dest : Nat)
  | MFLO (dest : Nat)
  | MTHI (source : Nat)
  | MTLO (source : Nat)
  | AND (source target dest : Nat)
  | OR (source target dest : Nat)
  | XOR (source target dest : Nat)
  | NOR (source target dest : Nat)
  | SLL (target shiftAmt dest : Nat)
  | SLLV (source target dest : Nat)
  | SRL (target shiftAmt dest : Nat)
  | SRLV (source target dest : Nat)
  | SRA (target shiftAmt dest : Nat)
  | SRAV (source target dest : Nat)
  | SLT (source target dest : Nat)
  | SLTU (source target dest : Nat)
  | JR (source : Nat)
  | JALR (source dest : Nat)
  | SYSCALL
  | BRK
  | ADDI (source target imm : Nat)
  | ADDIU (source target imm : Nat)
  | ANDI (source target imm : Nat)
  | ORI (source target imm : Nat)
  | XORI (source target imm : Nat)
  | SLTI (source target imm : Nat)
  | SLTIU (source target imm : Nat)
  | BEQ (source target imm : Nat)
  | BNE (source target imm : Nat)
  | BLEZ (source imm : Nat)
  | BGTZ (source imm : Nat)
  | BLTZ (source imm : Nat)
  | BGEZ (source imm : Nat)
  | BLTZAL (source imm : Nat)
  | BGEZAL (source imm : Nat)
  | LB (source target imm : Nat)
  | LBU (source target imm : Nat)
  | LH (source target imm : Nat)
  | LHU (source target imm : Nat)
  | LW (source target imm : Nat)
  | LWL (source target imm : Nat)
  | LWR (source target imm : Nat)
  | SB (source target imm : Nat)
  | SH (source target imm : Nat)
  | SW (source target imm : Nat)
  | SWL (source target imm : Nat)
  | SWR (source target imm : Nat)
  | LUI (target imm : Nat)
  | J (addr : Nat)
  | JAL (addr : Nat)
  | MFCZ (coproc : Coproc) (target dest : Nat)
  | MTCZ (coproc : Coproc) (target dest : Nat)
  | CFCZ (coproc : Coproc) (target dest : Nat)
  | CTCZ (coproc : Coproc) (target dest : Nat)
  | COPZ (coproc : Coproc) (fn : Nat)
  | LWCZ (coproc : Coproc) (source target imm : Nat)
  | SWCZ (coproc : Coproc) (source target imm : Nat)

namespace MIPSIInstruction

/-- The decoder (`MIPSIInstruction::decode`): field extraction followed by
the primary dispatch on `op` with the SPECIAL / REGIMM / COPz
sub-dispatches; unrecognised patterns yield `none`. -/
def decode (instr : Nat) : Option MIPSIInstruction :=
  let op := (instr &&& 0xFC000000) >>> 26
  let source := (instr &&& 0x03E00000) >>> 21
  let target := (instr &&& 0x001F0000) >>> 16
  let dest := (instr &&& 0x0000F800) >>> 11
  let shiftAmt := (instr &&& 0x000007C0) >>> 6
  let specialOp := instr &&& 0x0000003F
  let imm := instr % 2 ^ 16
  let jumpTarget := instr &&& 0x03FFFFFF
  let cofun := instr &&& 0x01FFFFFF
  match op with
  | 0x00 =>
    match specialOp with
    | 0x20 => some (ADD source target dest)
    | 0x21 => some (ADDU source target dest)
    | 0x22 => some (SUB source target dest)
    | 0x23 => some (SUBU source target dest)
    | 0x18 => some (MULT source target)
    | 0x19 => some (MULTU source target)
    | 0x1A => some (DIV source target)
    | 0x1B => some (DIVU source target)
    | 0x10 => some (MFHI dest)
    | 0x12 => some (MFLO dest)
    | 0x11 => some (MTHI source)
    | 0x13 => some (MTLO source)
    | 0x24 => some (AND source target dest)
    | 0x25 => some (OR source target dest)
    | 0x26 => some (XOR source target dest)
    | 0x27 => some (NOR source target dest)
    | 0x00 => some (SLL target shiftAmt dest)
    | 0x04 => some (SLLV source target dest)
    | 0x02 => some (SRL target shiftAmt dest)
    | 0x06 => some (SRLV source target dest)
    | 0x03 => some (SRA target shiftAmt dest)
    | 0x07 => some (SRAV source target dest)
    | 0x2A => some (SLT source target dest)
    | 0x2B => some (SLTU source target dest)
    | 0x08 => some (JR source)
    | 0x09 => some (JALR source dest)
    | 0x0C => some SYSCALL
    | 0x0D => some BRK
    | _ => none
  | 0x08 => some (ADDI source target imm)
  | 0x09 => some (ADDIU source target imm)
  | 0x0C => some (ANDI source target imm)
  | 0x0D => some (ORI source target imm)
  | 0x0E => some (XORI source target imm)
  | 0x0A => some (SLTI source target imm)
  | 0x0B => some (SLTIU source target imm)
  | 0x04 => some (BEQ source target imm)
  | 0x05 => some (BNE source target imm)
  | 0x06 => some (BLEZ source imm)
  | 0x07 => some (BGTZ source imm)
  | 0x01 =>
    match target with
    | 0x00 => some (BLTZ source imm)
    | 0x01 => some (BGEZ source imm)
    | 0x10 => some (BLTZAL source imm)
    | 0x11 => some (BGEZAL source imm)
    | _ => none
  | 0x20 => some (LB source target imm)
  | 0x24 => some (LBU source target imm)
  | 0x21 => some (LH source target imm)
  | 0x25 => some (LHU source target imm)
  | 0x23 => some (LW source target imm)
  | 0x22 => some (LWL source target imm)
  | 0x26 => some (LWR source target imm)
  | 0x28 => some (SB source target imm)
  | 0x29 => some (SH source target imm)
  | 0x2B => some (SW source target imm)
  | 0x2A => some (SWL source target imm)
  | 0x2E => some (SWR source target imm)
  | 0x0F => some (LUI target imm)
  | 0x02 => some (J jumpTarget)
  | 0x03 => some (JAL jumpTarget)
  | 0x10 =>
    match source with
    | 0x00 => some (MFCZ .c0 target dest)
    | 0x04 => some (MTCZ .c0 target dest)
    | x => if x &&& 0x10 = 0x10 then some (COPZ .c0 cofun) else none
  | 0x11 =>
    match source with
    | 0x00 => some (MFCZ .c1 target dest)
    | 0x02 => some (CFCZ .c1 target dest)
    | 0x04 => some (MTCZ .c1 target dest)
    | 0x06 => some (CTCZ .c1 target dest)
    | x => if x &&& 0x10 = 0x10 then some (COPZ .c1 cofun) else none
  | 0x12 =>
    match source with
    | 0x00 => some (MFCZ .c2 target dest)
    | 0x02 => some (CFCZ .c2 target dest)
    | 0x04 => some (MTCZ .c2 target dest)
    | 0x06 => some (CTCZ .c2 target dest)
    | x => if x &&& 0x10 = 0x10 then some (COPZ .c2 cofun) else none
  | 0x13 =>
    match source with
    | 0x00 => some (MFCZ .c3 target dest)
    | 0x02 => some (CFCZ .c3 target dest)
    | 0x04 => some (MTCZ .c3 target dest)
    | 0x06 => some (CTCZ .c3 target dest)
    | x => if x &&& 0x10 = 0x10 then some (COPZ .c3 cofun) else none
  | 0x31 => some (LWCZ .c1 source target imm)
  | 0x32 => some (LWCZ .c2 source target imm)
  | 0x33 => some (LWCZ .c3 source target imm)
  | 0x39 => some (SWCZ .c1 source target imm)
  | 0x3A => some (SWCZ .c2 source target imm)
  | 0x3B => some (SWCZ .c3 source target imm)
  | _ => none

end MIPSIInstruction

namespace MIPSI

/-- The dispatch arm of `step`: execute one decoded instruction. -/
def execute (m : Machine) : MIPSIInstruction → Machine
  | .ADD source target dest => add m source target dest
  | .ADDU source target dest => addu m source target dest
  | .SUB source target dest => sub m source target dest
  | .SUBU source target dest => subu m source target dest
  | .MULT source target => mult m source target
  | .MULTU source target => multu m source target
  | .DIV source target => div m source target
  | .DIVU source target => divu m source target
  | .MFHI dest => mfhi m dest
  | .MFLO dest => mflo m dest
  | .MTHI source => mthi m source
  | .MTLO source => mtlo m source
  | .AND source target dest => andOp m source target dest
  | .OR source target dest => orOp m source target dest
  | .XOR source target dest => xorOp m source target dest
  | .NOR source target dest => nor m source target dest
  | .SLL target shiftAmt dest => sll m target shiftAmt dest
  | .SLLV source target dest => sllv m source target dest
  | .SRL target shiftAmt dest => srl m target shiftAmt dest
  | .SRLV source target dest => srlv m source target dest
  | .SRA target shiftAmt dest => sra m target shiftAmt dest
  | .SRAV source target dest => srav m source target dest
  | .SLT source target dest => slt m source target dest
  | .SLTU source target dest => sltu m source target dest
  | .JR source => jr m source
  | .JALR source dest => jalr m source dest
  | .SYSCALL => syscall m
  | .BRK => brk m
  | .ADDI source target imm => addi m source target imm
  | .ADDIU source target imm => addiu m source target imm
  | .ANDI source target imm => andi m source target imm
  | .ORI source target imm => ori m source target imm
  | .XORI source target imm => xori m source target imm
  | .SLTI source target imm => slti m source target imm
  | .SLTIU source target imm => sltiu m source target imm
  | .BEQ source target imm => beq m source target imm
  | .BNE source target imm => bne m source target imm
  | .BLEZ source imm => blez m source imm
  | .BGTZ source imm => bgtz m source imm
  | .BLTZ source imm => bltz m source imm
  | .BGEZ source imm => bgez m source imm
  | .BLTZAL source imm => bltzal m source imm
  | .BGEZAL source imm => bgezal m source imm
  | .LB source target imm => lb m source target imm
  | .LBU source target imm => lbu m source target imm
  | .LH source target imm => lh m source target imm
  | .LHU source target imm => lhu m source target imm
  | .LW source target imm => lw m source target imm
  | .LWL source target imm => lwl m source target imm
  | .LWR source target imm => lwr m source target imm
  | .SB source target imm => sb m source target imm
  | .SH source target imm => sh m source target imm
  | .SW source target imm => sw m source target imm
  | .SWL source target imm => swl m source target imm
  | .SWR source target imm => swr m source target imm
  | .LUI target imm => lui m target imm
  | .J addr => j m addr
  | .JAL addr => jal m addr
  | .MFCZ coproc target dest => mfcz m coproc target dest
  | .MTCZ coproc target dest => mtcz m coproc target dest
  | .CFCZ coproc target dest => cfcz m coproc target dest
  | .CTCZ coproc target dest => ctcz m coproc target dest
  | .COPZ coproc fn => copz m coproc fn
  | .LWCZ coproc source target imm => lwcz m coproc source target imm
  | .SWCZ coproc source target imm => swcz m coproc source target imm

/-- The fetch/advance prefix of `step`: snapshot `current_instr_addr`,
read the instruction word (a bus transaction), and shift the pipeline
(`pc <- pc_next; pc_next <- pc_next + 4`) before executing. -/
def advance (m : Machine) : Nat × Machine :=
  let m1 := { m with cpu := { m.cpu with currentInstrAddr := m.cpu.pc } }
  let r := m1.bus.readWord m1.cpu.currentInstrAddr
  (r.1,
    { m1 with
        bus := r.2
        cpu := { m1.cpu with
                   pc := m1.cpu.pcNext
                   pcNext := (m1.cpu.pcNext + 4) % 2 ^ 32 } })

/-- The trailing clock/interrupt phase of `step`: tick the bus one cycle
and raise `Interrupt` if coprocessor 0 reports an external interrupt. -/
def clockPhase (m : Machine) : Machine :=
  let r := m.bus.clock 1
  let m1 := { m with bus := r.2 }
  if m1.cop0.extInt r.1 then triggerException m1 .interrupt else m1

/-- `step` from `instructions.rs`: fetch, advance the pipeline, decode
(raising `ReservedInstruction` on failure), execute, then clock the bus
and poll for interrupts.  Note the source never clears `branch_delay`
here. -/
def step (m : Machine) : Machine :=
  let r := advance m
  let m1 :=
    match MIPSIInstruction.decode r.1 with
    | some instr => execute r.2 instr
    | none => triggerException r.2 .reservedInstr
  clockPhase m1

/-- `reset` from `instructions.rs`: vector `pc` through coprocessor 0's
reset address. -/
def reset (m : Machine) : Machine :=
  let addr := m.cop0.resetVector
  { m with cpu := { m.cpu with pc := addr, pcNext := (addr + 4) % 2 ^ 32 } }

/-- Iterated `step`. -/
def stepN (m : Machine) : Nat → Machine
  | 0 => m
  | n + 1 => stepN (step m) n

end MIPSI

/-- Update one cell of a byte/register map. -/
def setCell (f : Nat → Nat) (k v : Nat) : Nat → Nat :=
  fun x => if x = k then v else f x

/-- Store a 32-bit word little-endian into a byte map (test fixture
setup, mirroring the test harness `LittleMemTest` plus the default
`write_word`). -/
def setWordLE (f : Nat → Nat) (addr val : Nat) : Nat → Nat :=
  fun a =>
    if a = addr then val % 2 ^ 8
    else if a = addr + 1 then val / 2 ^ 8 % 2 ^ 8
    else if a = addr + 2 then val / 2 ^ 16 % 2 ^ 8
    else if a = addr + 3 then val / 2 ^ 24 % 2 ^ 8
    else f a

/-- The reset CPU state of `MIPSI::new`. -/
def initCPU : CPUState :=
  { gp := fun _ => 0
    hi := 0
    lo := 0
    pc := 0
    pcNext := 4
    currentInstrAddr := 0
    branchDelay := false
    branchInterrupt := false }

/-- A little-endian bus with the given byte contents, no logged events and
no pending interrupts (the test harness `LittleMemTest`). -/
def testBus (bytes : Nat → Nat) : Bus :=
  { littleEndian := true
    bytes := bytes
    events := []
    intMask := 0 }

/-- A coprocessor 0 that records exceptions and vectors to 0 (the test
harness `TestCoproc0`). -/
def testCop0 : Cop0State :=
  { dataReg := fun _ => 0
    exLog := []
    vectorFn := fun _ => 0
    resetVector := 0
    extInt := fun _ => false
    opLog := [] }

/-- A fresh machine over the given memory bytes and coprocessor slots. -/
def testMachine (bytes : Nat → Nat) (c1 c2 c3 : Option CoprocState) : Machine :=
  { cpu := initCPU
    bus := testBus bytes
    cop0 := testCop0
    cop1 := c1
    cop2 := c2
    cop3 := c3 }

/-- Encode an I-type instruction (test harness `make_i_instr`). -/
def makeIInstr (op src tgt imm : Nat) : Nat :=
  op * 2 ^ 26 + src * 2 ^ 21 + tgt * 2 ^ 16 + imm

example : MIPSIInstruction.decode (makeIInstr 0x04 1 2 0x40) =
    some (.BEQ 1 2 0x40) := rfl

example : MIPSIInstruction.decode (makeIInstr 0x08 3 3 0x123) =
    some (.ADDI 3 3 0x123) := rfl

/-- Program for the S3 branch scenario: BEQ 1,2,+0x40 at 0, ADDI 3,3,0x123
at 4 (delay slot), ADDI 4,4,0x123 at 8 (fall-through), ADDI 4,4,0x456 at
0x104 (branch target). -/
def s3bytes : Nat → Nat :=
  setWordLE (setWordLE (setWordLE (setWordLE (fun _ => 0)
    0 (makeIInstr 0x04 1 2 0x40))
    4 (makeIInstr 0x08 3 3 0x123))
    8 (makeIInstr 0x08 4 4 0x123))
    0x104 (makeIInstr 0x08 4 4 0x456)

/-- The S3 machine: the scenario program with `gp1 = gp2 = 0x1234`, so the
branch is taken. -/
def s3m : Machine :=
  let m := testMachine s3bytes none none none
  { m with cpu := { m.cpu with gp := setCell (setCell m.cpu.gp 1 0x1234) 2 0x1234 } }

/-- Variant of S3 with SYSCALL (funct 0x0C) at the branch target 0x104. -/
def c3bytes : Nat → Nat :=
  setWordLE (setWordLE (setWordLE (fun _ => 0)
    0 (makeIInstr 0x04 1 2 0x40))
    4 (makeIInstr 0x08 3 3 0x123))
    0x104 0x0000000C

/-- Machine running the SYSCALL-at-branch-target program. -/
def c3m : Machine :=
  let m := testMachine c3bytes none none none
  { m with cpu := { m.cpu with gp := setCell (setCell m.cpu.gp 1 0x1234) 2 0x1234 } }

/-- Machine with `gp1 = 0x7FFF_FFFF` and `gp2 = 1`: the claimed ADD
overflow boundary case. -/
def c1m : Machine :=
  let m := testMachine (fun _ => 0) none none none
  { m with cpu := { m.cpu with gp := setCell (setCell m.cpu.gp 1 0x7FFFFFFF) 2 1 } }

/-- Machine with `gp1 = 0xFFFF_FFFE` and `gp2 = 0xFFFF_FFFF`: the repo's
own `sub` regression input (signed -2 - -1, no signed overflow). -/
def c1s : Machine :=
  let m := testMachine (fun _ => 0) none none none
  { m with cpu := { m.cpu with gp := setCell (setCell m.cpu.gp 1 0xFFFFFFFE) 2 0xFFFFFFFF } }

/-- C1: the claim says ADD/SUB/ADDI trap exactly on *signed* 32-bit
overflow, so ADD of 0x7FFF_FFFF and 1 must trap and leave the destination
unchanged.  The code instead checks the *unsigned* `u32` carry/borrow:
evaluating it at the claim's own boundary input shows ADD writes
0x8000_0000 to the destination and raises no exception, and at the repo's
own `sub` test input (0xFFFF_FFFE - 0xFFFF_FFFF, no signed overflow) SUB
raises `ArithmeticOverflow` and leaves the destination unchanged. -/
theorem c1_add_sub_use_unsigned_check :
    readGp (MIPSI.add c1m 1 2 3) 3 = 0x80000000 ∧
    (MIPSI.add c1m 1 2 3).cop0.exLog = [] ∧
    readGp (MIPSI.sub c1s 1 2 3) 3 = 0 ∧
    (MIPSI.sub c1s 1 2 3).cop0.exLog =
      [{ code := .arithmeticOverflow, retAddr := 0, badVirtualAddr := 0,
         branchDelay := false }] := by
  refine ⟨by decide, by decide, by decide, by decide⟩

/-- C2: the claim says `step()` clears `branch_delay` at its start, so
after a step the flag is true exactly when that step executed a taken
branch or jump.  The code never clears the flag: in the S3 program the
taken BEQ sets it, and it is still true after step 2 (ADDI in the delay
slot) and after step 3 (ADDI at the branch target), both of which decode
as ADDI, not branches. -/
theorem c2_branch_delay_never_cleared :
    MIPSIInstruction.decode (s3m.bus.wordAt 4) = some (.ADDI 3 3 0x123) ∧
    MIPSIInstruction.decode (s3m.bus.wordAt 0x104) = some (.ADDI 4 4 0x456) ∧
    (MIPSI.stepN s3m 2).cpu.pc = 0x104 ∧
    (MIPSI.stepN s3m 2).cpu.branchDelay = true ∧
    (MIPSI.stepN s3m 3).cpu.branchDelay = true := by
  refine ⟨rfl, rfl, by decide, by decide, by decide⟩

/-- C3: the claim says an exception report carries
`ret_addr = current_instr_addr - 4` exactly when the offending instruction
sits in a branch-delay slot.  Because `step()` never clears
`branch_delay`, a SYSCALL at the branch *target* (step 3; step 2 executed
the non-branch delay-slot ADDI, so 0x104 is not a delay slot) is reported
with the stale flag: `ret_addr = 0x100` instead of `0x104`.  The vectoring
part of the claim does hold: `pc` becomes the vector returned by
`trigger_exception` (0 for the test coprocessor 0) and `pc_next` the
vector plus 4. -/
theorem c3_ret_addr_uses_stale_delay_flag :
    MIPSIInstruction.decode (c3m.bus.wordAt 4) = some (.ADDI 3 3 0x123) ∧
    MIPSIInstruction.decode (c3m.bus.wordAt 0x104) = some .SYSCALL ∧
    (MIPSI.stepN c3m 2).cpu.pc = 0x104 ∧
    (MIPSI.stepN c3m 3).cop0.exLog =
      [{ code := .syscallEx, retAddr := 0x100, badVirtualAddr := 0,
         branchDelay := true }] ∧
    (0x100 : Nat) ≠ 0x104 ∧
    (MIPSI.stepN c3m 3).cpu.pc = 0 ∧
    (MIPSI.stepN c3m 3).cpu.pcNext = 4 := by
  refine ⟨rfl, rfl, by decide, by decide, by decide, by decide, by decide⟩

/-- Characterisation of a register read after a write: the value lands
unless the target is register 0 or a different register. -/
theorem readGp_writeGp (m : Machine) (r v s : Nat) :
    readGp (writeGp m r v) s = if s = r ∧ r ≠ 0 then v else readGp m s := by
  unfold readGp writeGp
  by_cases hr : r = 0
  · simp [hr]
  · by_cases hs : s = r <;> simp [hr, hs]

/-- `write_gp` leaves every CPU field except `gp` (and the collaborators)
unchanged. -/
theorem writeGp_pcNext (m : Machine) (r v : Nat) :
    (writeGp m r v).cpu.pcNext = m.cpu.pcNext := by
  unfold writeGp; split <;> rfl

theorem writeGp_pc (m : Machine) (r v : Nat) :
    (writeGp m r v).cpu.pc = m.cpu.pc := by
  unfold writeGp; split <;> rfl

theorem writeGp_branchDelay (m : Machine) (r v : Nat) :
    (writeGp m r v).cpu.branchDelay = m.cpu.branchDelay := by
  unfold writeGp; split <;> rfl

theorem writeGp_bus (m : Machine) (r v : Nat) :
    (writeGp m r v).bus = m.bus := by
  unfold writeGp; split <;> rfl

theorem writeGp_cop0 (m : Machine) (r v : Nat) :
    (writeGp m r v).cop0 = m.cop0 := by
  unfold writeGp; split <;> rfl

/-- C4: JR (and JALR) replace all 32 bits of `pc_next` with the register
value, with no segment masking, while J (and JAL) keep the top nibble of
the already-advanced `pc_next` and install `addr26 << 2` below it. -/
theorem c4_jump_global_vs_jump_segment :
    (∀ (m : Machine) (rs : Nat),
      (MIPSI.jr m rs).cpu.pcNext = readGp m rs) ∧
    (∀ (m : Machine) (rs rd : Nat), rs ≠ rd →
      (MIPSI.jalr m rs rd).cpu.pcNext = readGp m rs) ∧
    (∀ (m : Machine) (a : Nat), a < 2 ^ 26 →
      (MIPSI.j m a).cpu.pcNext = (m.cpu.pcNext &&& 0xF0000000) ||| (a <<< 2)) ∧
    (∀ (m : Machine) (a : Nat), a < 2 ^ 26 →
      (MIPSI.jal m a).cpu.pcNext = (m.cpu.pcNext &&& 0xF0000000) ||| (a <<< 2)) := by
  have hshift : ∀ a : Nat, a < 2 ^ 26 → (a <<< 2) % 2 ^ 32 = a <<< 2 := by
    intro a ha
    have : a <<< 2 < 2 ^ 32 := by
      rw [Nat.shiftLeft_eq]; omega
    exact Nat.mod_eq_of_lt this
  refine ⟨fun m rs => rfl, fun m rs rd h => ?_, fun m a ha => ?_, fun m a ha => ?_⟩
  · show readGp (linkRegister m rd) rs = readGp m rs
    unfold linkRegister
    rw [readGp_writeGp]
    simp [h]
  · show (m.cpu.pcNext &&& 0xF0000000) ||| (a <<< 2) % 2 ^ 32 = _
    rw [hshift a ha]
  · show ((linkRegister m 31).cpu.pcNext &&& 0xF0000000) ||| (a <<< 2) % 2 ^ 32 = _
    rw [hshift a ha]
    unfold linkRegister
    rw [writeGp_pcNext]

/-- C4 witness: the general jump theorem instantiated at a concrete
machine, registers 1/2 and target 0x123. -/
theorem c4_witness :
    ((MIPSI.jr c1m 1).cpu.pcNext = readGp c1m 1) ∧
    ((1 : Nat) ≠ 2 ∧ (MIPSI.jalr c1m 1 2).cpu.pcNext = readGp c1m 1) ∧
    ((0x123 : Nat) < 2 ^ 26 ∧
      (MIPSI.j c1m 0x123).cpu.pcNext = (c1m.cpu.pcNext &&& 0xF0000000) ||| (0x123 <<< 2)) ∧
    ((0x123 : Nat) < 2 ^ 26 ∧
      (MIPSI.jal c1m 0x123).cpu.pcNext = (c1m.cpu.pcNext &&& 0xF0000000) ||| (0x123 <<< 2)) :=
  ⟨c4_jump_global_vs_jump_segment.1 c1m 1,
   ⟨by decide, c4_jump_global_vs_jump_segment.2.1 c1m 1 2 (by decide)⟩,
   ⟨by decide, c4_jump_global_vs_jump_segment.2.2.1 c1m 0x123 (by decide)⟩,
   ⟨by decide, c4_jump_global_vs_jump_segment.2.2.2 c1m 0x123 (by decide)⟩⟩

/-- The S4 machine: BGEZAL 1,+0x40 at address 0 with a non-negative
`gp1`. -/
def s4m : Machine :=
  let m := testMachine (setWordLE (fun _ => 0) 0 (makeIInstr 0x01 1 0x11 0x40)) none none none
  { m with cpu := { m.cpu with gp := setCell m.cpu.gp 1 0x12345678 } }

/-- C7: BGEZAL and BLTZAL write the current `pc_next` into register 31
unconditionally, before testing the condition (at step level that value is
the branch instruction's address plus 8, as the concrete S4 one-step run
shows); when the operand's sign bit is set (the value the source reads,
after the link, so for any `rs` other than 31 the original register
value), BGEZAL still links but does not branch. -/
theorem c7_bgezal_links_unconditionally :
    (∀ (m : Machine) (rs off : Nat),
      readGp (MIPSI.bgezal m rs off) 31 = m.cpu.pcNext) ∧
    (∀ (m : Machine) (rs off : Nat),
      readGp (MIPSI.bltzal m rs off) 31 = m.cpu.pcNext) ∧
    (∀ (m : Machine) (rs off : Nat),
      2 ^ 31 ≤ readGp (linkRegister m 31) rs →
      readGp (linkRegister m 31) rs < 2 ^ 32 →
      (MIPSI.bgezal m rs off).cpu.pcNext = m.cpu.pcNext ∧
      (MIPSI.bgezal m rs off).cpu.branchDelay = m.cpu.branchDelay ∧
      readGp (MIPSI.bgezal m rs off) 31 = m.cpu.pcNext) ∧
    (MIPSI.step s4m).cpu.gp 31 = 8 := by
  have hlink : ∀ (m : Machine), readGp (linkRegister m 31) 31 = m.cpu.pcNext := by
    intro m
    unfold linkRegister
    rw [readGp_writeGp]
    simp
  have hneg : ∀ (m : Machine) (rs : Nat),
      2 ^ 31 ≤ readGp (linkRegister m 31) rs →
      readGp (linkRegister m 31) rs < 2 ^ 32 →
      ¬ (0 ≤ toI32 (readGp (linkRegister m 31) rs)) := by
    intro m rs h1 h2
    unfold toI32
    rw [if_neg (by omega)]
    push_neg
    have : ((readGp (linkRegister m 31) rs : Int)) < 2 ^ 32 := by exact_mod_cast h2
    omega
  have hbg : ∀ (m : Machine) (rs off : Nat),
      MIPSI.bgezal m rs off =
        if 0 ≤ toI32 (readGp (linkRegister m 31) rs) then
          branch (linkRegister m 31) ((signExtend16 off <<< 2) % 2 ^ 32)
        else linkRegister m 31 := fun m rs off => rfl
  have hbl : ∀ (m : Machine) (rs off : Nat),
      MIPSI.bltzal m rs off =
        if toI32 (readGp (linkRegister m 31) rs) < 0 then
          branch (linkRegister m 31) ((signExtend16 off <<< 2) % 2 ^ 32)
        else linkRegister m 31 := fun m rs off => rfl
  have hbranch : ∀ (m : Machine) (off s : Nat), readGp (branch m off) s = readGp m s :=
    fun m off s => rfl
  refine ⟨fun m rs off => ?_, fun m rs off => ?_, fun m rs off h1 h2 => ?_, by decide⟩
  · rw [hbg]
    split
    · rw [hbranch]; exact hlink m
    · exact hlink m
  · rw [hbl]
    split
    · rw [hbranch]; exact hlink m
    · exact hlink m
  · rw [hbg, if_neg (hneg m rs h1 h2)]
    exact ⟨writeGp_pcNext m 31 m.cpu.pcNext, writeGp_branchDelay m 31 m.cpu.pcNext, hlink m⟩

/-- C7 witness: the link/no-branch theorem instantiated at a concrete
machine whose `gp1` holds the negative value 0xFFFF_FFFF. -/
theorem c7_witness :
    (readGp (MIPSI.bgezal c1s 1 0x40) 31 = c1s.cpu.pcNext) ∧
    (readGp (MIPSI.bltzal c1s 1 0x40) 31 = c1s.cpu.pcNext) ∧
    (2 ^ 31 ≤ readGp (linkRegister c1s 31) 1 ∧
      readGp (linkRegister c1s 31) 1 < 2 ^ 32 ∧
      (MIPSI.bgezal c1s 1 0x40).cpu.pcNext = c1s.cpu.pcNext ∧
      (MIPSI.bgezal c1s 1 0x40).cpu.branchDelay = c1s.cpu.branchDelay ∧
      readGp (MIPSI.bgezal c1s 1 0x40) 31 = c1s.cpu.pcNext) :=
  ⟨c7_bgezal_links_unconditionally.1 c1s 1 0x40,
   c7_bgezal_links_unconditionally.2.1 c1s 1 0x40,
   by decide, by decide,
   (c7_bgezal_links_unconditionally.2.2.1 c1s 1 0x40 (by decide) (by decide)).1,
   (c7_bgezal_links_unconditionally.2.2.1 c1s 1 0x40 (by decide) (by decide)).2.1,
   (c7_bgezal_links_unconditionally.2.2.1 c1s 1 0x40 (by decide) (by decide)).2.2⟩

/-- The S2 machine: memory word 0x8765_4321 at address 0, `gp1 = 1`. -/
def s2m : Machine :=
  let m := testMachine (setWordLE (fun _ => 0) 0 0x87654321) none none none
  { m with cpu := { m.cpu with gp := setCell m.cpu.gp 1 1 } }

/-- C8: on a little-endian bus LWL computes `off = 3 - (addr & 3)`,
fetches the aligned word, masks the old register with
0 / 0xFF / 0xFFFF / 0xFFFFFF according to `off` and ORs in
`word << (off*8)` (truncated to 32 bits); concretely on the S2 state LWL
yields 0x4321_0000 and LWR yields 0x0087_6543. -/
theorem c8_lwl_lwr_little_endian :
    (∀ (m : Machine) (base rt off : Nat), m.bus.littleEndian = true → rt ≠ 0 →
      readGp (MIPSI.lwl m base rt off) rt =
        ((match 3 - (MIPSI.effAddr m base off &&& 3) with
          | 0 => 0
          | 1 => 0xFF
          | 2 => 0xFFFF
          | _ => 0xFFFFFF) &&& readGp m rt) |||
        ((m.bus.wordAt (MIPSI.effAddr m base off &&& 0xFFFFFFFC) <<<
            ((3 - (MIPSI.effAddr m base off &&& 3)) * 8)) % 2 ^ 32)) ∧
    readGp (MIPSI.lwl s2m 1 2 0) 2 = 0x43210000 ∧
    readGp (MIPSI.lwr s2m 1 2 0) 2 = 0x00876543 := by
  refine ⟨fun m base rt off hle hrt => ?_, by decide, by decide⟩
  have he : MIPSI.lwl m base rt off =
      writeGp { m with bus := (m.bus.readWord (MIPSI.effAddr m base off &&& 0xFFFFFFFC)).2 } rt
        ((MIPSI.lwlMask (if m.bus.littleEndian then 3 - (MIPSI.effAddr m base off &&& 3)
            else MIPSI.effAddr m base off &&& 3) &&& readGp m rt) |||
          ((m.bus.wordAt (MIPSI.effAddr m base off &&& 0xFFFFFFFC) <<<
            ((if m.bus.littleEndian then 3 - (MIPSI.effAddr m base off &&& 3)
              else MIPSI.effAddr m base off &&& 3) * 8)) % 2 ^ 32)) := rfl
  rw [he, hle, if_pos rfl, readGp_writeGp, if_pos ⟨rfl, hrt⟩]
  have hba : MIPSI.effAddr m base off &&& 3 ≤ 3 := Nat.and_le_right
  have hmask : MIPSI.lwlMask (3 - (MIPSI.effAddr m base off &&& 3)) =
      (match 3 - (MIPSI.effAddr m base off &&& 3) with
       | 0 => 0
       | 1 => 0xFF
       | 2 => 0xFFFF
       | _ => 0xFFFFFF) := by
    interval_cases h : (MIPSI.effAddr m base off &&& 3) <;> rfl
  rw [hmask]

/-- C8 witness: the LWL formula instantiated on the concrete S2 state. -/
theorem c8_witness :
    s2m.bus.littleEndian = true ∧ (2 : Nat) ≠ 0 ∧
    readGp (MIPSI.lwl s2m 1 2 0) 2 =
      ((match 3 - (MIPSI.effAddr s2m 1 0 &&& 3) with
        | 0 => 0
        | 1 => 0xFF
        | 2 => 0xFFFF
        | _ => 0xFFFFFF) &&& readGp s2m 2) |||
      ((s2m.bus.wordAt (MIPSI.effAddr s2m 1 0 &&& 0xFFFFFFFC) <<<
          ((3 - (MIPSI.effAddr s2m 1 0 &&& 3)) * 8)) % 2 ^ 32) :=
  ⟨by decide, by decide,
   c8_lwl_lwr_little_endian.1 s2m 1 2 0 (by decide) (by decide)⟩

/-- The coprocessor slot a selector addresses (slot 0 is the mandatory
coprocessor 0 and is never empty). -/
def slotOf (m : Machine) : Coproc → Option CoprocState
  | .c0 => none
  | .c1 => m.cop1
  | .c2 => m.cop2
  | .c3 => m.cop3

/-- Machine with `gp1 = 0x10` and all of slots 1-3 empty. -/
def c5m : Machine :=
  let m := testMachine (fun _ => 0) none none none
  { m with cpu := { m.cpu with gp := setCell m.cpu.gp 1 0x10 } }

/-- C5 counterexample: the claim says a coprocessor access to an empty
slot performs no side effect on the memory bus, but LWC1 with slot 1
empty issues the `read_word` bus transaction (the source reads the memory
word before checking the slot), so the bus state changes even though
`CoProcUnusable` is raised. -/
theorem c5_lwcz_reads_bus_counterexample :
    c5m.cop1 = none ∧
    c5m.bus.events = [] ∧
    (MIPSI.lwcz c5m .c1 1 2 0).bus.events = [BusEvent.readWord 0x10] ∧
    (MIPSI.lwcz c5m .c1 1 2 0).bus.events ≠ c5m.bus.events ∧
    (MIPSI.lwcz c5m .c1 1 2 0).cop0.exLog.map (fun r => r.code) =
      [ExceptionCode.coProcUnusable] :=
  ⟨rfl, rfl, by decide, by decide, by decide⟩

/-- C5 (amended): for an empty slot z in {1,2,3}, MTCz, MFCz, CTCz, CFCz,
COPz and SWCz raise `CoProcUnusable` and are literally the exception
trigger (no side effect on GPRs, bus or any coprocessor), while LWCz also
raises `CoProcUnusable` and leaves GPRs, memory contents and coprocessors
untouched but first issues the memory word read on the bus. -/
theorem c5_empty_slot_coproc_unusable (m : Machine) (cp : Coproc)
    (h0 : cp ≠ .c0) (he : slotOf m cp = none) (tgt creg base off fn : Nat) :
    MIPSI.mtcz m cp tgt creg = triggerException m .coProcUnusable ∧
    MIPSI.mfcz m cp tgt creg = triggerException m .coProcUnusable ∧
    MIPSI.ctcz m cp tgt creg = triggerException m .coProcUnusable ∧
    MIPSI.cfcz m cp tgt creg = triggerException m .coProcUnusable ∧
    MIPSI.copz m cp fn = triggerException m .coProcUnusable ∧
    MIPSI.swcz m cp base creg off = triggerException m .coProcUnusable ∧
    MIPSI.lwcz m cp base creg off =
      triggerException { m with bus := (m.bus.readWord (MIPSI.effAddr m base off)).2 }
        .coProcUnusable ∧
    (∀ r, readGp (MIPSI.lwcz m cp base creg off) r = readGp m r) ∧
    (∀ a, (MIPSI.lwcz m cp base creg off).bus.bytes a = m.bus.bytes a) ∧
    (MIPSI.lwcz m cp base creg off).cop1 = m.cop1 ∧
    (MIPSI.lwcz m cp base creg off).cop2 = m.cop2 ∧
    (MIPSI.lwcz m cp base creg off).cop3 = m.cop3 := by
  cases cp
  · exact absurd rfl h0
  all_goals
    simp only [slotOf] at he
  all_goals
    refine ⟨?_, ?_, ?_, ?_, ?_, ?_, ?_, ?_, ?_, ?_, ?_, ?_⟩ <;>
      simp [MIPSI.mtcz, MIPSI.mfcz, MIPSI.ctcz, MIPSI.cfcz, MIPSI.copz,
            MIPSI.swcz, MIPSI.lwcz, he, triggerException, readGp,
            Bus.readWord]

/-- C5 witness: the amended empty-slot theorem instantiated at the
concrete machine with slot 1 empty. -/
theorem c5_witness :
    Coproc.c1 ≠ Coproc.c0 ∧ slotOf c5m .c1 = none ∧
    MIPSI.mtcz c5m .c1 1 2 = triggerException c5m .coProcUnusable ∧
    MIPSI.lwcz c5m .c1 1 2 3 =
      triggerException { c5m with bus := (c5m.bus.readWord (MIPSI.effAddr c5m 1 3)).2 }
        .coProcUnusable :=
  ⟨by decide, rfl,
   (c5_empty_slot_coproc_unusable c5m .c1 (by decide) rfl 1 2 1 3 0).1,
   (c5_empty_slot_coproc_unusable c5m .c1 (by decide) rfl 0 2 1 3 0).2.2.2.2.2.2.1⟩

/-- First component of the fetch/advance phase: the fetched word. -/
theorem advance_fst (m : Machine) : (MIPSI.advance m).1 = m.bus.wordAt m.cpu.pc := rfl

/-- The pipeline shift: the advanced `pc` is the old `pc_next`. -/
theorem advance_pc (m : Machine) : (MIPSI.advance m).2.cpu.pc = m.cpu.pcNext := rfl

/-- The pipeline shift: the advanced `pc_next` is the old plus 4. -/
theorem advance_pcNext (m : Machine) :
    (MIPSI.advance m).2.cpu.pcNext = (m.cpu.pcNext + 4) % 2 ^ 32 := rfl

/-- Fetching does not touch the register file. -/
theorem advance_gp (m : Machine) : (MIPSI.advance m).2.cpu.gp = m.cpu.gp := rfl

/-- Fetching does not touch coprocessor 0. -/
theorem advance_cop0 (m : Machine) : (MIPSI.advance m).2.cop0 = m.cop0 := rfl

/-- Fetching does not change the pending interrupt mask. -/
theorem advance_intMask (m : Machine) :
    (MIPSI.advance m).2.bus.intMask = m.bus.intMask := rfl

/-- `step` unfolded into its three phases. -/
theorem step_eq (m : Machine) :
    MIPSI.step m =
      MIPSI.clockPhase
        (match MIPSIInstruction.decode (MIPSI.advance m).1 with
         | some i => MIPSI.execute (MIPSI.advance m).2 i
         | none => triggerException (MIPSI.advance m).2 .reservedInstr) := rfl

/-- When coprocessor 0 reports no external interrupt the clock phase is a
no-op. -/
theorem clockPhase_of_no_int (m : Machine)
    (h : m.cop0.extInt m.bus.intMask = false) : MIPSI.clockPhase m = m := by
  unfold MIPSI.clockPhase Bus.clock
  simp [h]

/-- C6: a taken BEQ at address A leaves `pc = A + 4` (so the delay slot at
A + 4 executes on the next step), `pc_next = (A + 4) + (sign_extend(imm)
<< 2)` (the branch target executes on the step after) and `branch_delay`
true; concretely, the S3 scenario sets `gp3 = 0x123` after two steps and
`gp4 = 0x456` after three. -/
theorem c6_beq_taken (m : Machine) (a rs rt imm : Nat)
    (hpc : m.cpu.pc = a)
    (hnext : m.cpu.pcNext = (a + 4) % 2 ^ 32)
    (hfetch : MIPSIInstruction.decode (m.bus.wordAt a) = some (.BEQ rs rt imm))
    (heq : readGp m rs = readGp m rt)
    (hint : m.cop0.extInt m.bus.intMask = false) :
    (MIPSI.step m).cpu.pc = (a + 4) % 2 ^ 32 ∧
    (MIPSI.step m).cpu.pcNext = ((a + 4) + (signExtend16 imm <<< 2)) % 2 ^ 32 ∧
    (MIPSI.step m).cpu.branchDelay = true ∧
    (MIPSI.stepN s3m 2).cpu.gp 3 = 0x123 ∧
    (MIPSI.stepN s3m 3).cpu.gp 4 = 0x456 := by
  have hexec : MIPSI.step m =
      MIPSI.clockPhase (MIPSI.execute (MIPSI.advance m).2 (.BEQ rs rt imm)) := by
    rw [step_eq, advance_fst, hpc, hfetch]
  have hbeq : MIPSI.execute (MIPSI.advance m).2 (.BEQ rs rt imm) =
      branch (MIPSI.advance m).2 ((signExtend16 imm <<< 2) % 2 ^ 32) := by
    show MIPSI.beq (MIPSI.advance m).2 rs rt imm = _
    unfold MIPSI.beq
    rw [if_pos]
    show readGp m rs = readGp m rt
    exact heq
  have hcp : MIPSI.step m = branch (MIPSI.advance m).2 ((signExtend16 imm <<< 2) % 2 ^ 32) := by
    rw [hexec, hbeq, clockPhase_of_no_int]
    show (MIPSI.advance m).2.cop0.extInt (MIPSI.advance m).2.bus.intMask = false
    rw [advance_cop0, advance_intMask]
    exact hint
  refine ⟨?_, ?_, ?_, by decide, by decide⟩
  · rw [hcp]
    show (MIPSI.advance m).2.cpu.pc = _
    rw [advance_pc, hnext]
  · rw [hcp]
    show ((MIPSI.advance m).2.cpu.pc + (signExtend16 imm <<< 2) % 2 ^ 32) % 2 ^ 32 = _
    rw [advance_pc, hnext]
    generalize signExtend16 imm <<< 2 = k
    omega
  · rw [hcp]; rfl

/-- C6 witness: the taken-branch theorem instantiated on the concrete S3
machine (BEQ 1,2,+0x40 at address 0 with `gp1 = gp2`). -/
theorem c6_witness :
    s3m.cpu.pc = 0 ∧ s3m.cpu.pcNext = (0 + 4) % 2 ^ 32 ∧
    MIPSIInstruction.decode (s3m.bus.wordAt 0) = some (.BEQ 1 2 0x40) ∧
    readGp s3m 1 = readGp s3m 2 ∧
    s3m.cop0.extInt s3m.bus.intMask = false ∧
    (MIPSI.step s3m).cpu.pc = (0 + 4) % 2 ^ 32 ∧
    (MIPSI.step s3m).cpu.pcNext = ((0 + 4) + (signExtend16 0x40 <<< 2)) % 2 ^ 32 ∧
    (MIPSI.step s3m).cpu.branchDelay = true :=
  ⟨rfl, by decide, rfl, by decide, rfl,
   (c6_beq_taken s3m 0 1 2 0x40 rfl (by decide) rfl (by decide) rfl).1,
   (c6_beq_taken s3m 0 1 2 0x40 rfl (by decide) rfl (by decide) rfl).2.1,
   (c6_beq_taken s3m 0 1 2 0x40 rfl (by decide) rfl (by decide) rfl).2.2.1⟩

/-- Whether executing the given decoded instruction from this (already
pipeline-advanced) state takes a branch or is a jump: the branch
conditions mirror the instruction semantics (the linked branches test the
operand after `link_register(31)` runs, as the source does). -/
def branchTaken (m : Machine) : MIPSIInstruction → Bool
  | .BEQ rs rt _ => decide (readGp m rs = readGp m rt)
  | .BNE rs rt _ => decide (readGp m rs ≠ readGp m rt)
  | .BGTZ rs _ => decide (0 < toI32 (readGp m rs))
  | .BGEZ rs _ => decide (0 ≤ toI32 (readGp m rs))
  | .BLTZ rs _ => decide (toI32 (readGp m rs) < 0)
  | .BLEZ rs _ => decide (toI32 (readGp m rs) ≤ 0)
  | .BGEZAL rs _ => decide (0 ≤ toI32 (readGp (linkRegister m 31) rs))
  | .BLTZAL rs _ => decide (toI32 (readGp (linkRegister m 31) rs) < 0)
  | .J _ => true
  | .JAL _ => true
  | .JR _ => true
  | .JALR _ _ => true
  | _ => false

/-- `branch` and the two jump forms leave coprocessor 0 and `pc`
untouched (they only rewrite `pc_next` and the delay flag). -/
theorem branch_cop0 (m : Machine) (o : Nat) : (branch m o).cop0 = m.cop0 := rfl
theorem branch_pc (m : Machine) (o : Nat) : (branch m o).cpu.pc = m.cpu.pc := rfl
theorem jumpGlobal_cop0 (m : Machine) (a : Nat) : (jumpGlobal m a).cop0 = m.cop0 := rfl
theorem jumpGlobal_pc (m : Machine) (a : Nat) : (jumpGlobal m a).cpu.pc = m.cpu.pc := rfl
theorem jumpSegment_cop0 (m : Machine) (a : Nat) : (jumpSegment m a).cop0 = m.cop0 := rfl
theorem jumpSegment_pc (m : Machine) (a : Nat) : (jumpSegment m a).cpu.pc = m.cpu.pc := rfl

/-- Shape of one instruction dispatch: either no exception was triggered,
`pc` is untouched and `pc_next` is untouched unless the instruction was a
taken branch or jump - or some exception report was pushed to coprocessor
0. -/
theorem execute_shape (m : Machine) (i : MIPSIInstruction) :
    ((MIPSI.execute m i).cop0.exLog = m.cop0.exLog ∧
     (MIPSI.execute m i).cpu.pc = m.cpu.pc ∧
     ((MIPSI.execute m i).cpu.pcNext = m.cpu.pcNext ∨ branchTaken m i = true)) ∨
    (∃ rep, (MIPSI.execute m i).cop0.exLog = rep :: m.cop0.exLog) := by
  cases i
  all_goals try exact Or.inr ⟨_, rfl⟩
  -- plain non-trapping, non-branching instructions
  all_goals try
    (refine Or.inl ⟨?_, ?_, Or.inl ?_⟩ <;>
      (simp [MIPSI.execute, MIPSI.addu, MIPSI.addiu, MIPSI.subu, MIPSI.mult,
        MIPSI.multu, MIPSI.div, MIPSI.divu, MIPSI.mfhi, MIPSI.mflo, MIPSI.mthi,
        MIPSI.mtlo, MIPSI.andOp, MIPSI.andi, MIPSI.orOp, MIPSI.ori, MIPSI.xorOp,
        MIPSI.xori, MIPSI.nor, MIPSI.sll, MIPSI.srl, MIPSI.sra, MIPSI.sllv,
        MIPSI.srlv, MIPSI.srav, MIPSI.slt, MIPSI.sltu, MIPSI.slti, MIPSI.sltiu,
        MIPSI.lb, MIPSI.lbu, MIPSI.lh, MIPSI.lhu, MIPSI.lw, MIPSI.lwl, MIPSI.lwr,
        MIPSI.sb, MIPSI.sh, MIPSI.sw, MIPSI.swl, MIPSI.swr, MIPSI.lui,
        writeGp_cop0, writeGp_pc, writeGp_pcNext, writeHi, writeLo]; done))
  -- jumps: always taken
  all_goals try
    (refine Or.inl ⟨?_, ?_, Or.inr rfl⟩ <;>
      (simp [MIPSI.execute, MIPSI.j, MIPSI.jal, MIPSI.jr, MIPSI.jalr,
        jumpGlobal_cop0, jumpGlobal_pc, jumpSegment_cop0, jumpSegment_pc,
        linkRegister, writeGp_cop0, writeGp_pc, writeGp_pcNext]; done))
  -- conditional branches without link
  all_goals try
    (simp only [MIPSI.execute, MIPSI.beq, MIPSI.bne, MIPSI.bgtz, MIPSI.bgez,
       MIPSI.bltz, MIPSI.blez]
     split
     · rename_i h
       exact Or.inl ⟨rfl, rfl, Or.inr (by simp [branchTaken, h])⟩
     · exact Or.inl ⟨rfl, rfl, Or.inl rfl⟩)
  -- add / addi / sub: split on the checked arithmetic
  all_goals try
    (simp only [MIPSI.execute, MIPSI.add, MIPSI.addi, MIPSI.sub]
     split
     · refine Or.inl ⟨?_, ?_, Or.inl ?_⟩ <;>
         (simp [writeGp_cop0, writeGp_pc, writeGp_pcNext]; done)
     · exact Or.inr ⟨_, rfl⟩)
  -- linked branches
  case BLTZAL rs off =>
    have hbl : MIPSI.execute m (.BLTZAL rs off) =
        if toI32 (readGp (linkRegister m 31) rs) < 0 then
          branch (linkRegister m 31) ((signExtend16 off <<< 2) % 2 ^ 32)
        else linkRegister m 31 := rfl
    rw [hbl]
    split
    · rename_i h
      refine Or.inl ⟨?_, ?_, Or.inr (by simp [branchTaken, h])⟩ <;>
        simp [branch_cop0, branch_pc, linkRegister, writeGp_cop0, writeGp_pc]
    · refine Or.inl ⟨?_, ?_, Or.inl ?_⟩ <;>
        simp [linkRegister, writeGp_cop0, writeGp_pc, writeGp_pcNext]
  case BGEZAL rs off =>
    have hbg : MIPSI.execute m (.BGEZAL rs off) =
        if 0 ≤ toI32 (readGp (linkRegister m 31) rs) then
          branch (linkRegister m 31) ((signExtend16 off <<< 2) % 2 ^ 32)
        else linkRegister m 31 := rfl
    rw [hbg]
    split
    · rename_i h
      refine Or.inl ⟨?_, ?_, Or.inr (by simp [branchTaken, h])⟩ <;>
        simp [branch_cop0, branch_pc, linkRegister, writeGp_cop0, writeGp_pc]
    · refine Or.inl ⟨?_, ?_, Or.inl ?_⟩ <;>
        simp [linkRegister, writeGp_cop0, writeGp_pc, writeGp_pcNext]
  -- coprocessor accesses: split on the addressed slot
  case MTCZ cp tgt dst =>
    cases cp <;> (try simp only [MIPSI.execute, MIPSI.mtcz]) <;> try split
    all_goals try exact Or.inr ⟨_, rfl⟩
    all_goals refine Or.inl ⟨?_, ?_, Or.inl ?_⟩ <;>
      (simp [Cop0State.moveToReg, writeGp_cop0, writeGp_pc, writeGp_pcNext]; done)
  case MFCZ cp tgt dst =>
    cases cp <;> (try simp only [MIPSI.execute, MIPSI.mfcz]) <;> try split
    all_goals try exact Or.inr ⟨_, rfl⟩
    all_goals refine Or.inl ⟨?_, ?_, Or.inl ?_⟩ <;>
      (simp [writeGp_cop0, writeGp_pc, writeGp_pcNext]; done)
  case CTCZ cp tgt dst =>
    cases cp <;> (try simp only [MIPSI.execute, MIPSI.ctcz]) <;> try split
    all_goals try exact Or.inr ⟨_, rfl⟩
    all_goals refine Or.inl ⟨?_, ?_, Or.inl ?_⟩ <;>
      (simp [writeGp_cop0, writeGp_pc, writeGp_pcNext]; done)
  case CFCZ cp tgt dst =>
    cases cp <;> (try simp only [MIPSI.execute, MIPSI.cfcz]) <;> try split
    all_goals try exact Or.inr ⟨_, rfl⟩
    all_goals refine Or.inl ⟨?_, ?_, Or.inl ?_⟩ <;>
      (simp [writeGp_cop0, writeGp_pc, writeGp_pcNext]; done)
  case COPZ cp fn =>
    cases cp <;> (try simp only [MIPSI.execute, MIPSI.copz]) <;> try split
    all_goals try exact Or.inr ⟨_, rfl⟩
    all_goals refine Or.inl ⟨?_, ?_, Or.inl ?_⟩ <;>
      (simp [Cop0State.operation, writeGp_cop0, writeGp_pc, writeGp_pcNext]; done)
  case LWCZ cp src tgt imm =>
    cases cp <;> (try simp only [MIPSI.execute, MIPSI.lwcz]) <;> try split
    all_goals try exact Or.inr ⟨_, rfl⟩
    all_goals refine Or.inl ⟨?_, ?_, Or.inl ?_⟩ <;>
      (simp [writeGp_cop0, writeGp_pc, writeGp_pcNext]; done)
  case SWCZ cp src tgt imm =>
    cases cp <;> (try simp only [MIPSI.execute, MIPSI.swcz]) <;> try split
    all_goals try exact Or.inr ⟨_, rfl⟩
    all_goals refine Or.inl ⟨?_, ?_, Or.inl ?_⟩ <;>
      (simp [writeGp_cop0, writeGp_pc, writeGp_pcNext]; done)

/-- The clock phase either leaves the machine unchanged or pushes an
`Interrupt` report. -/
theorem clockPhase_shape (m : Machine) :
    MIPSI.clockPhase m = m ∨
    ∃ rep, (MIPSI.clockPhase m).cop0.exLog = rep :: m.cop0.exLog := by
  have h : MIPSI.clockPhase m =
      if m.cop0.extInt m.bus.intMask = true then triggerException m .interrupt
      else m := rfl
  rw [h]
  split
  · exact Or.inr ⟨_, rfl⟩
  · exact Or.inl rfl

/-- C9: after a `step()` that does not trap (no exception report reached
coprocessor 0), `pc` equals the pre-step `pc_next`; and when the executed
instruction was not a taken branch or jump, `pc_next` additionally equals
the new `pc` plus 4. -/
theorem c9_step_advances_pc (m : Machine)
    (hnotrap : (MIPSI.step m).cop0.exLog = m.cop0.exLog) :
    (MIPSI.step m).cpu.pc = m.cpu.pcNext ∧
    (∀ i, MIPSIInstruction.decode (m.bus.wordAt m.cpu.pc) = some i →
      branchTaken (MIPSI.advance m).2 i = false →
      (MIPSI.step m).cpu.pcNext = ((MIPSI.step m).cpu.pc + 4) % 2 ^ 32) := by
  have hlen : (MIPSI.step m).cop0.exLog.length = m.cop0.exLog.length := by
    rw [hnotrap]
  rcases hdec : MIPSIInstruction.decode (m.bus.wordAt m.cpu.pc) with _ | i
  · exfalso
    have hstep : MIPSI.step m =
        MIPSI.clockPhase (triggerException (MIPSI.advance m).2 .reservedInstr) := by
      rw [step_eq, advance_fst, hdec]
    obtain ⟨rep0, htr⟩ : ∃ rep,
        (triggerException (MIPSI.advance m).2 .reservedInstr).cop0.exLog =
          rep :: m.cop0.exLog := ⟨_, rfl⟩
    rcases clockPhase_shape (triggerException (MIPSI.advance m).2 .reservedInstr) with
      hcp | ⟨rep, hcp⟩
    · rw [hstep, hcp, htr] at hlen
      simp only [List.length_cons] at hlen
      omega
    · rw [hstep, hcp, htr] at hlen
      simp only [List.length_cons] at hlen
      omega
  · have hstep : MIPSI.step m =
        MIPSI.clockPhase (MIPSI.execute (MIPSI.advance m).2 i) := by
      rw [step_eq, advance_fst, hdec]
    rcases execute_shape (MIPSI.advance m).2 i with ⟨hE, hpcE, hnE⟩ | ⟨rep, hE⟩
    · rw [advance_cop0] at hE
      rcases clockPhase_shape (MIPSI.execute (MIPSI.advance m).2 i) with hcp | ⟨rep, hcp⟩
      · constructor
        · rw [hstep, hcp, hpcE, advance_pc]
        · intro i2 hdec2 hbt
          cases Option.some.inj hdec2
          rcases hnE with hnE | htaken
          · rw [hstep, hcp, hnE, advance_pcNext, hpcE, advance_pc]
          · simp [hbt] at htaken
      · exfalso
        rw [hstep, hcp, hE] at hlen
        simp only [List.length_cons] at hlen
        omega
    · exfalso
      rw [advance_cop0] at hE
      rcases clockPhase_shape (MIPSI.execute (MIPSI.advance m).2 i) with hcp | ⟨rep2, hcp⟩
      · rw [hstep, hcp, hE] at hlen
        simp only [List.length_cons] at hlen
        omega
      · rw [hstep, hcp, hE] at hlen
        simp only [List.length_cons] at hlen
        omega

/-- C9 witness: the no-trap step theorem instantiated on a concrete
machine whose next instruction word 0 decodes to SLL 0,0,0 (a nop). -/
theorem c9_witness :
    (MIPSI.step c1m).cop0.exLog = c1m.cop0.exLog ∧
    (MIPSI.step c1m).cpu.pc = c1m.cpu.pcNext ∧
    MIPSIInstruction.decode (c1m.bus.wordAt c1m.cpu.pc) = some (.SLL 0 0 0) ∧
    branchTaken (MIPSI.advance c1m).2 (.SLL 0 0 0) = false ∧
    (MIPSI.step c1m).cpu.pcNext = ((MIPSI.step c1m).cpu.pc + 4) % 2 ^ 32 :=
  ⟨by decide, (c9_step_advances_pc c1m (by decide)).1,
   rfl, by decide,
   (c9_step_advances_pc c1m (by decide)).2 (.SLL 0 0 0) rfl (by decide)⟩

/-- Writes through `write_gp` never change register 0 (the write to index
0 is discarded, and other indices do not alias it). -/
theorem writeGp_gp0 (m : Machine) (r v : Nat) :
    (writeGp m r v).cpu.gp 0 = m.cpu.gp 0 := by
  unfold writeGp
  split
  · rename_i h
    have h0 : (0 : Nat) ≠ r := fun he => h he.symm
    simp [h0]
  · rfl

/-- Exception entry does not touch the register file. -/
theorem triggerException_gp (m : Machine) (c : ExceptionCode) :
    (triggerException m c).cpu.gp = m.cpu.gp := rfl

theorem branch_gp (m : Machine) (o : Nat) : (branch m o).cpu.gp = m.cpu.gp := rfl

theorem jumpGlobal_gp (m : Machine) (a : Nat) : (jumpGlobal m a).cpu.gp = m.cpu.gp := rfl

theorem jumpSegment_gp (m : Machine) (a : Nat) : (jumpSegment m a).cpu.gp = m.cpu.gp := rfl

/-- No instruction dispatch can change register 0: every register-file
write in the instruction set goes through `write_gp`. -/
theorem execute_gp0 (m : Machine) (i : MIPSIInstruction) :
    (MIPSI.execute m i).cpu.gp 0 = m.cpu.gp 0 := by
  cases i
  all_goals try
    (simp [MIPSI.execute, MIPSI.addu, MIPSI.addiu, MIPSI.subu, MIPSI.mult,
      MIPSI.multu, MIPSI.div, MIPSI.divu, MIPSI.mfhi, MIPSI.mflo, MIPSI.mthi,
      MIPSI.mtlo, MIPSI.andOp, MIPSI.andi, MIPSI.orOp, MIPSI.ori, MIPSI.xorOp,
      MIPSI.xori, MIPSI.nor, MIPSI.sll, MIPSI.srl, MIPSI.sra, MIPSI.sllv,
      MIPSI.srlv, MIPSI.srav, MIPSI.slt, MIPSI.sltu, MIPSI.slti, MIPSI.sltiu,
      MIPSI.lb, MIPSI.lbu, MIPSI.lh, MIPSI.lhu, MIPSI.lw, MIPSI.lwl, MIPSI.lwr,
      MIPSI.sb, MIPSI.sh, MIPSI.sw, MIPSI.swl, MIPSI.swr, MIPSI.lui,
      MIPSI.syscall, MIPSI.brk, MIPSI.j, MIPSI.jal, MIPSI.jr, MIPSI.jalr,
      linkRegister, writeGp_gp0, triggerException_gp, branch_gp, jumpGlobal_gp,
      jumpSegment_gp, writeHi, writeLo]; done)
  all_goals try
    (simp only [MIPSI.execute, MIPSI.add, MIPSI.addi, MIPSI.sub, MIPSI.beq,
       MIPSI.bne, MIPSI.bgtz, MIPSI.bgez, MIPSI.bltz, MIPSI.blez, MIPSI.bgezal,
       MIPSI.bltzal]
     split <;>
       (simp [linkRegister, writeGp_gp0, triggerException_gp, branch_gp]; done))
  case MTCZ cp tgt dst =>
    cases cp <;> (try simp only [MIPSI.execute, MIPSI.mtcz]) <;> try split
    all_goals (simp [writeGp_gp0, triggerException_gp]; done)
  case MFCZ cp tgt dst =>
    cases cp <;> (try simp only [MIPSI.execute, MIPSI.mfcz]) <;> try split
    all_goals (simp [writeGp_gp0, triggerException_gp]; done)
  case CTCZ cp tgt dst =>
    cases cp <;> (try simp only [MIPSI.execute, MIPSI.ctcz]) <;> try split
    all_goals (simp [writeGp_gp0, triggerException_gp]; done)
  case CFCZ cp tgt dst =>
    cases cp <;> (try simp only [MIPSI.execute, MIPSI.cfcz]) <;> try split
    all_goals (simp [writeGp_gp0, triggerException_gp]; done)
  case COPZ cp fn =>
    cases cp <;> (try simp only [MIPSI.execute, MIPSI.copz]) <;> try split
    all_goals (simp [writeGp_gp0, triggerException_gp]; done)
  case LWCZ cp src tgt imm =>
    cases cp <;> (try simp only [MIPSI.execute, MIPSI.lwcz]) <;> try split
    all_goals (simp [writeGp_gp0, triggerException_gp]; done)
  case SWCZ cp src tgt imm =>
    cases cp <;> (try simp only [MIPSI.execute, MIPSI.swcz]) <;> try split
    all_goals (simp [writeGp_gp0, triggerException_gp]; done)

/-- The clock phase does not touch the register file. -/
theorem clockPhase_gp (m : Machine) : (MIPSI.clockPhase m).cpu.gp = m.cpu.gp := by
  have h : MIPSI.clockPhase m =
      if m.cop0.extInt m.bus.intMask = true then triggerException m .interrupt
      else m := rfl
  rw [h]
  split
  · exact triggerException_gp m .interrupt
  · rfl

/-- A whole `step()` never changes register 0. -/
theorem step_gp0 (m : Machine) : (MIPSI.step m).cpu.gp 0 = m.cpu.gp 0 := by
  rw [step_eq]
  rcases hdec : MIPSIInstruction.decode (MIPSI.advance m).1 with _ | i
  · rw [clockPhase_gp]
    rw [triggerException_gp]
    rfl
  · rw [clockPhase_gp]
    rw [execute_gp0]
    rfl

/-- States reachable from a fresh `MIPSI::new` machine (over any
collaborators) by any sequence of the public operations: `step`, `reset`
and `write_gp`. -/
inductive Reachable : Machine → Prop where
  | mk_new (bus : Bus) (c0 : Cop0State) (c1 c2 c3 : Option CoprocState) :
      Reachable { cpu := initCPU, bus := bus, cop0 := c0, cop1 := c1, cop2 := c2, cop3 := c3 }
  | of_step (m : Machine) : Reachable m → Reachable (MIPSI.step m)
  | of_reset (m : Machine) : Reachable m → Reachable (MIPSI.reset m)
  | of_writeGp (m : Machine) (r v : Nat) : Reachable m → Reachable (writeGp m r v)

/-- The r0-hardwired-to-zero invariant holds in every reachable state. -/
theorem reachable_gp0 (m : Machine) (h : Reachable m) : m.cpu.gp 0 = 0 := by
  induction h with
  | mk_new bus c0 c1 c2 c3 => rfl
  | of_step m hm ih => rw [step_gp0]; exact ih
  | of_reset m hm ih => exact ih
  | of_writeGp m r v hm ih => rw [writeGp_gp0]; exact ih

/-- C10: in every reachable state, after `write_gp(i, v)` the call
`read_gp(0)` returns 0; a write to index 0 is silently discarded
(`write_gp m 0 v = m`) and a read of index 0 always yields 0. -/
theorem c10_gp0_always_zero (m : Machine) (h : Reachable m) (i v : Nat) :
    readGp (writeGp m i v) 0 = 0 ∧ readGp m 0 = 0 ∧ writeGp m 0 v = m := by
  refine ⟨?_, reachable_gp0 m h, ?_⟩
  · show (writeGp m i v).cpu.gp 0 = 0
    rw [writeGp_gp0]
    exact reachable_gp0 m h
  · unfold writeGp
    simp

/-- C10 witness: the theorem instantiated at a fresh machine with a
concrete write. -/
theorem c10_witness :
    readGp (writeGp (testMachine (fun _ => 0) none none none) 5 77) 0 = 0 ∧
    readGp (testMachine (fun _ => 0) none none none) 0 = 0 ∧
    writeGp (testMachine (fun _ => 0) none none none) 0 77 =
      testMachine (fun _ => 0) none none none :=
  c10_gp0_always_zero (testMachine (fun _ => 0) none none none)
    (Reachable.mk_new (testBus (fun _ => 0)) testCop0 none none none) 5 77
